import Mathlib

/-!
Shallow embedding of the GtkGrid layout engine (src/gtk/gtkgrid.c).

The grid's size-request solver and space allocator operate one orientation at
a time over an ephemeral array of `GtkGridLine` records indexed by
`attach.pos - lines.min`.  We model that array as a total function
`Nat → GtkGridLine` (indices relative to `lines.min`; the C code memsets the
arena to zero before use, which the default field values reproduce), and model
each child, as seen by one orientation pass, as an `OrientedChild` carrying the
results of the widget-capability calls (`_gtk_widget_get_visible`,
`gtk_widget_compute_expand`, `compute_request_for_child`) that the engine
consumes through its narrow external interface.

Machine integers (`gint`) are modelled as `Int`; C's truncating division and
remainder are `Int.tdiv` / `Int.tmod`.
-/

/-- GtkBaselinePosition enum. -/
inductive GtkBaselinePosition
  | top
  | center
  | bottom
deriving DecidableEq, Repr

/-- A single row or column during size requests (struct GtkGridLine).
Default field values correspond to the zero-filled (memset) arena state. -/
structure GtkGridLine where
  minimum : Int := 0
  natural : Int := 0
  minimum_above : Int := 0
  minimum_below : Int := 0
  natural_above : Int := 0
  natural_below : Int := 0
  position : Int := 0
  allocation : Int := 0
  allocated_baseline : Int := 0
  need_expand : Bool := false
  expand : Bool := false
  empty : Bool := false
deriving DecidableEq, Repr

/-- A child as consumed by one orientation of the solver: its cell attachment
in that orientation (index already shifted by `lines.min`, so `idx` is the
array index) together with the answers of the widget-interface queries the
pass makes for it (visibility, expand flag, and the minimum/natural size and
baselines reported by `compute_request_for_child` for this pass). -/
structure OrientedChild where
  visible : Bool
  computeExpand : Bool
  idx : Nat
  span : Nat
  minimum : Int
  natural : Int
  minimum_baseline : Int := -1
  natural_baseline : Int := -1
deriving DecidableEq, Repr

/-- Per-orientation solver environment: the fields of GtkGridPrivate and of
the chosen orientation's GtkGridLineData that the request/allocate passes
read, plus the line range computed by gtk_grid_request_count_lines
(`n = lines.max - lines.min`, `linesMin = lines.min`). `bp` models
gtk_grid_get_row_baseline_position. -/
structure RequestEnv where
  children : List OrientedChild
  n : Nat
  linesMin : Int
  spacing : Int
  homogeneous : Bool
  vertical : Bool
  baseline_row : Int
  bp : Int → GtkBaselinePosition

/-- Pointwise update of the line arena at index `i`. -/
def setLine (ls : Nat → GtkGridLine) (i : Nat) (f : GtkGridLine → GtkGridLine) :
    Nat → GtkGridLine :=
  fun j => if j = i then f (ls j) else ls j

/-- Sum of `g 0 + ... + g (n-1)` (loop accumulations over line ranges). -/
def sumOver (g : Nat → Int) (n : Nat) : Int :=
  ((List.range n).map g).sum

/-- Fold of `max` over `g 0, ..., g (n-1)` starting from 0, as in
gtk_grid_request_homogeneous's first loop. -/
def maxOver (g : Nat → Int) (n : Nat) : Int :=
  (List.range n).foldl (fun m i => max m (g i)) 0

/-- gtk_grid_request_init: reset every line's sizes to 0, baselines to -1,
expand to false, empty to true; then mark `expand` on every line that holds a
non-spanning child whose widget computes expand (note: the C loop does not
filter on visibility here). -/
def gtk_grid_request_init (e : RequestEnv) : Nat → GtkGridLine :=
  let base : Nat → GtkGridLine := fun i =>
    if i < e.n then
      { minimum := 0, natural := 0
        minimum_above := -1, minimum_below := -1
        natural_above := -1, natural_below := -1
        expand := false, empty := true }
    else {}
  e.children.foldl
    (fun ls c =>
      if c.span = 1 && c.computeExpand then
        setLine ls c.idx (fun l => { l with expand := true })
      else ls)
    base

/-- The per-line baseline redistribution at the end of
gtk_grid_request_non_spanning: when a line recorded a baseline split, lift
`minimum`/`natural` to cover `above + below`, then push the extra space to one
side (TOP/BOTTOM) or split it (CENTER) following the row's baseline position.
The C updates the fields sequentially, so the second `+=` of the CENTER case
reads the already-updated `_above` field. -/
def baselineAdjust (pos : GtkBaselinePosition) (l : GtkGridLine) : GtkGridLine :=
  if l.minimum_above ≠ -1 then
    let l1 := { l with
      minimum := max l.minimum (l.minimum_above + l.minimum_below)
      natural := max l.natural (l.natural_above + l.natural_below) }
    match pos with
    | .top =>
      { l1 with
        minimum_below := l1.minimum_below + (l1.minimum - (l1.minimum_above + l1.minimum_below))
        natural_below := l1.natural_below + (l1.natural - (l1.natural_above + l1.natural_below)) }
    | .center =>
      let ma := l1.minimum_above + (l1.minimum - (l1.minimum_above + l1.minimum_below)).tdiv 2
      let mb := l1.minimum_below + (l1.minimum - (ma + l1.minimum_below)).tdiv 2
      let na := l1.natural_above + (l1.natural - (l1.natural_above + l1.natural_below)).tdiv 2
      let nb := l1.natural_below + (l1.natural - (na + l1.natural_below)).tdiv 2
      { l1 with minimum_above := ma, minimum_below := mb
                natural_above := na, natural_below := nb }
    | .bottom =>
      { l1 with
        minimum_above := l1.minimum_above + (l1.minimum - (l1.minimum_above + l1.minimum_below))
        natural_above := l1.natural_above + (l1.natural - (l1.natural_above + l1.natural_below)) }
  else l

/-- gtk_grid_request_non_spanning: max-aggregate every visible span-1 child's
request into its line (into the baseline split fields when the child reports a
baseline, else into plain minimum/natural), then run the baseline
redistribution over all lines. -/
def gtk_grid_request_non_spanning (e : RequestEnv) (ls0 : Nat → GtkGridLine) :
    Nat → GtkGridLine :=
  let ls1 := e.children.foldl
    (fun ls c =>
      if !c.visible then ls
      else if c.span ≠ 1 then ls
      else
        setLine ls c.idx (fun l =>
          if c.minimum_baseline ≠ -1 then
            { l with
              minimum_above := max l.minimum_above c.minimum_baseline
              minimum_below := max l.minimum_below (c.minimum - c.minimum_baseline)
              natural_above := max l.natural_above c.natural_baseline
              natural_below := max l.natural_below (c.natural - c.natural_baseline) }
          else
            { l with
              minimum := max l.minimum c.minimum
              natural := max l.natural c.natural }))
    ls0
  fun i => if i < e.n then baselineAdjust (e.bp ((e.linesMin + i : Int))) (ls1 i) else ls1 i

/-- gtk_grid_request_homogeneous: if this orientation is homogeneous, set
every line's minimum (resp. natural) to the maximum minimum (resp. natural)
across all lines. -/
def gtk_grid_request_homogeneous (e : RequestEnv) (ls : Nat → GtkGridLine) :
    Nat → GtkGridLine :=
  if !e.homogeneous then ls
  else
    let m := maxOver (fun i => (ls i).minimum) e.n
    let t := maxOver (fun i => (ls i).natural) e.n
    fun i => if i < e.n then { ls i with minimum := m, natural := t } else ls i

/-- The non-homogeneous shortfall distribution loop of
gtk_grid_request_spanning: walk the spanned lines in order; each line that is
(force-)expanding receives `extra / expand` units, after which `extra` and
`expand` shrink accordingly.  `get`/`set` select the minimum or the natural
field. `cnt` counts the remaining loop iterations starting at offset `off`. -/
def spanDistribute (get : GtkGridLine → Int) (set : GtkGridLine → Int → GtkGridLine)
    (force : Bool) (pos : Nat) :
    Nat → Nat → Int → Int → (Nat → GtkGridLine) → (Nat → GtkGridLine)
  | 0, _, _, _, ls => ls
  | cnt + 1, off, extra, expand, ls =>
    if force || (ls (pos + off)).expand then
      let line_extra := extra.tdiv expand
      spanDistribute get set force pos cnt (off + 1) (extra - line_extra) (expand - 1)
        (setLine ls (pos + off) (fun l => set l (get l + line_extra)))
    else
      spanDistribute get set force pos cnt (off + 1) extra expand ls

/-- The homogeneous branch of gtk_grid_request_spanning: raise each spanned
line's size to at least the even per-line share `m`. -/
def spanClamp (get : GtkGridLine → Int) (set : GtkGridLine → Int → GtkGridLine)
    (pos span : Nat) (m : Int) (ls : Nat → GtkGridLine) : Nat → GtkGridLine :=
  fun j => if pos ≤ j ∧ j < pos + span then set (ls j) (max (get (ls j)) m) else ls j

/-- Loop body of gtk_grid_request_spanning for one child: skip invisible and
span-1 children; compute the span's current minimum/natural totals and its
expanding-line count from the current lines (forcing all lines to expand when
none does); then, independently for minimum and natural, distribute any
shortfall — evenly (rounded up) under homogeneous, else via the sequential
division loop over the (force-)expanding lines. -/
def gtk_grid_request_spanning_child (e : RequestEnv) (ls : Nat → GtkGridLine)
    (c : OrientedChild) : Nat → GtkGridLine :=
  if !c.visible then ls
  else if c.span = 1 then ls
  else
    let span_minimum := ((c.span : Int) - 1) * e.spacing +
      sumOver (fun i => (ls (c.idx + i)).minimum) c.span
    let span_natural := ((c.span : Int) - 1) * e.spacing +
      sumOver (fun i => (ls (c.idx + i)).natural) c.span
    let se := sumOver (fun i => if (ls (c.idx + i)).expand then 1 else 0) c.span
    let force_expand := se = 0
    let span_expand := if se = 0 then (c.span : Int) else se
    let ls1 :=
      if span_minimum < c.minimum then
        if e.homogeneous then
          let total := c.minimum - ((c.span : Int) - 1) * e.spacing
          let m := total.tdiv (c.span : Int) +
            (if total.tmod (c.span : Int) ≠ 0 then 1 else 0)
          spanClamp (fun l => l.minimum) (fun l v => { l with minimum := v })
            c.idx c.span m ls
        else
          spanDistribute (fun l => l.minimum) (fun l v => { l with minimum := v })
            force_expand c.idx c.span 0 (c.minimum - span_minimum) span_expand ls
      else ls
    if span_natural < c.natural then
      if e.homogeneous then
        let total := c.natural - ((c.span : Int) - 1) * e.spacing
        let m := total.tdiv (c.span : Int) +
          (if total.tmod (c.span : Int) ≠ 0 then 1 else 0)
        spanClamp (fun l => l.natural) (fun l v => { l with natural := v })
          c.idx c.span m ls1
      else
        spanDistribute (fun l => l.natural) (fun l v => { l with natural := v })
          force_expand c.idx c.span 0 (c.natural - span_natural) span_expand ls1
    else ls1

/-- gtk_grid_request_spanning: process every child through the spanning loop
body, in child-list order. -/
def gtk_grid_request_spanning (e : RequestEnv) (ls0 : Nat → GtkGridLine) :
    Nat → GtkGridLine :=
  e.children.foldl (gtk_grid_request_spanning_child e) ls0

/-- gtk_grid_request_run: init, non-spanning pass, homogeneous clamp,
spanning pass, homogeneous clamp. -/
def gtk_grid_request_run (e : RequestEnv) : Nat → GtkGridLine :=
  gtk_grid_request_homogeneous e
    (gtk_grid_request_spanning e
      (gtk_grid_request_homogeneous e
        (gtk_grid_request_non_spanning e
          (gtk_grid_request_init e))))

/-- The `gint` extremes used as unbounded window sentinels. -/
def G_MININT : Int := -(2 ^ 31)

/-- The maximum `gint`. -/
def G_MAXINT : Int := 2 ^ 31 - 1

/-- Result of gtk_grid_request_compute_expand: the lines with their
`need_expand`/`expand`/`empty` flags recomputed, plus the two out-counts. -/
structure ComputeExpandResult where
  lines : Nat → GtkGridLine
  nonempty_lines : Int
  expand_lines : Int

/-- gtk_grid_request_compute_expand: over the window `[lo, hi)` (given in
line-relative coordinates and clamped to `[0, n)` as the C clamps the absolute
bounds to `[lines.min, lines.max)`): reset the three flags; mark lines of
visible span-1 children non-empty (and expanding when their widget expands);
mark lines spanned by visible spanning children non-empty and, when such a
child expands but none of its lines does, flag them `need_expand` — both
guarded by the window test `attach.pos + i >= max || attach.pos + 1 < min`,
kept verbatim from the C including its `+ 1` (instead of `+ i`) in the lower
bound; finally promote `need_expand` to `expand` and count the empty and
expanding lines of the window. -/
def gtk_grid_request_compute_expand (e : RequestEnv) (lo hi : Int)
    (ls0 : Nat → GtkGridLine) : ComputeExpandResult :=
  let lo' := max lo 0
  let hi' := min hi (e.n : Int)
  let ls1 : Nat → GtkGridLine := fun j =>
    if lo' ≤ (j : Int) ∧ (j : Int) < hi' then
      { ls0 j with need_expand := false, expand := false, empty := true }
    else ls0 j
  let ls2 := e.children.foldl
    (fun ls c =>
      if !c.visible then ls
      else if c.span ≠ 1 then ls
      else if (c.idx : Int) ≥ hi' ∨ (c.idx : Int) < lo' then ls
      else
        setLine ls c.idx (fun l =>
          if c.computeExpand then { l with empty := false, expand := true }
          else { l with empty := false }))
    ls1
  let ls3 := e.children.foldl
    (fun ls c =>
      if !c.visible then ls
      else if c.span = 1 then ls
      else
        let has_expand := (List.range c.span).any (fun i => (ls (c.idx + i)).expand)
        let ls' := (List.range c.span).foldl
          (fun ls2 (i : Nat) =>
            if ((c.idx + i : Nat) : Int) ≥ hi' ∨ (c.idx : Int) + 1 < lo' then ls2
            else setLine ls2 (c.idx + i) (fun l => { l with empty := false }))
          ls
        if !has_expand && c.computeExpand then
          (List.range c.span).foldl
            (fun ls2 (i : Nat) =>
              if ((c.idx + i : Nat) : Int) ≥ hi' ∨ (c.idx : Int) + 1 < lo' then ls2
              else setLine ls2 (c.idx + i) (fun l => { l with need_expand := true }))
            ls'
        else ls')
    ls2
  let ls4 : Nat → GtkGridLine := fun j =>
    if (lo' ≤ (j : Int) ∧ (j : Int) < hi') ∧ (ls3 j).need_expand then
      { ls3 j with expand := true }
    else ls3 j
  let winIdx := List.range' lo'.toNat (hi' - lo').toNat
  let emptyCount : Int := winIdx.countP (fun i => (ls4 i).empty)
  let expandCount : Int := winIdx.countP (fun i => (ls4 i).expand)
  { lines := ls4
    nonempty_lines := (hi' - lo') - emptyCount
    expand_lines := expandCount }

/-- gtk_grid_request_sum: recompute the empty flags over the full window，
then accumulate every line's minimum/natural plus one spacing per non-empty
line, removing the final trailing spacing; while walking, record the running
total plus the baseline row's `minimum_above`/`natural_above` as the grid's
reported baselines (vertical orientation only). Returns
(minimum, natural, minimum_baseline, natural_baseline), the baselines being
-1 when never assigned, as in gtk_grid_get_size. -/
def gtk_grid_request_sum (e : RequestEnv) (ls0 : Nat → GtkGridLine) :
    Int × Int × Int × Int :=
  let r := gtk_grid_request_compute_expand e G_MININT G_MAXINT ls0
  let L := r.lines
  let st := (List.range e.n).foldl
    (fun st (i : Nat) =>
      let (mn, nt, mb, nb) := st
      let (mb, nb) :=
        if e.vertical ∧ e.linesMin + (i : Int) = e.baseline_row ∧
            (L i).minimum_above ≠ -1 then
          (mn + (L i).minimum_above, nt + (L i).natural_above)
        else (mb, nb)
      let mn := mn + (L i).minimum + (if !(L i).empty then e.spacing else 0)
      let nt := nt + (L i).natural + (if !(L i).empty then e.spacing else 0)
      (mn, nt, mb, nb))
    ((0 : Int), (0 : Int), (-1 : Int), (-1 : Int))
  let (mn, nt, mb, nb) := st
  if r.nonempty_lines > 0 then (mn - e.spacing, nt - e.spacing, mb, nb)
  else (mn, nt, mb, nb)

/-- Modelled from the spec: `gtk_distribute_natural_allocation`
(gtksizerequest.c) is code of this repository that is not under src/.  Per
§4.3 of the spec it grows each requested size from its minimum toward its
natural size, consuming the extra space, such that lines below natural
receive extra space up to their natural size before any line exceeds natural,
and returns the space left over once every size has reached its natural.
We realise this as an in-order fill that gives each entry its remaining gap
while extra space lasts; whenever the extra space covers the total gap (the
only regime the claims exercise) every entry reaches exactly its natural size
and the leftover is the surplus beyond total-natural, as the spec requires.
Returns (leftover, grown minimum sizes). -/
def gtk_distribute_natural_allocation (extra : Int) :
    List (Int × Int) → Int × List Int
  | [] => (extra, [])
  | (m, t) :: rest =>
    let gap := max 0 (t - m)
    let give := min extra gap
    let r := gtk_distribute_natural_allocation (extra - give) rest
    (r.1, (m + give) :: r.2)

/-- The final loop of gtk_grid_distribute_non_homogeneous: walk the non-empty
window lines in order, set each line's allocation to its grown minimum size,
and give each expanding line `extra` more plus one unit while `rest` lasts. -/
def distributeAssign (extra : Int) :
    List Nat → List Int → Int → (Nat → GtkGridLine) → (Nat → GtkGridLine)
  | [], _, _, ls => ls
  | _ :: _, [], _, ls => ls
  | j :: js, g :: gs, rest, ls =>
    if (ls j).expand then
      let add : Int := if rest > 0 then 1 else 0
      distributeAssign extra js gs (rest - add)
        (setLine ls j (fun l => { l with allocation := g + extra + add }))
    else
      distributeAssign extra js gs rest
        (setLine ls j (fun l => { l with allocation := g }))

/-- gtk_grid_distribute_non_homogeneous: over the window `[lo, hi)` of
non-empty lines, subtract the minimums from the budget, run the natural-size
distribution on the remainder (clamped at 0), then hand the leftover to the
expanding lines in even shares of `leftover / expand` with the remaining
`leftover % expand` units going one each to the earliest expanding lines. -/
def gtk_grid_distribute_non_homogeneous (ls : Nat → GtkGridLine)
    (nonempty expand size : Int) (lo hi : Int) : Nat → GtkGridLine :=
  if nonempty = 0 then ls
  else
    let js := (List.range' lo.toNat (hi - lo).toNat).filter (fun i => !(ls i).empty)
    let size1 := size - (js.map (fun i => (ls i).minimum)).sum
    let sizes := js.map (fun i => ((ls i).minimum, (ls i).natural))
    let r := gtk_distribute_natural_allocation (max 0 size1) sizes
    let extra := if expand > 0 then r.1.tdiv expand else 0
    let rest := if expand > 0 then r.1.tmod expand else 0
    distributeAssign extra js r.2 rest ls

/-- The homogeneous allocation loop of gtk_grid_request_allocate: every
non-empty line (over the whole range) receives `extra`, plus one unit while
`rest` lasts, earliest lines first. -/
def homogeneousAssign (extra : Int) :
    List Nat → Int → (Nat → GtkGridLine) → (Nat → GtkGridLine)
  | [], _, ls => ls
  | i :: is, rest, ls =>
    if (ls i).empty then homogeneousAssign extra is rest ls
    else
      let add : Int := if rest > 0 then 1 else 0
      homogeneousAssign extra is (rest - add)
        (setLine ls i (fun l => { l with allocation := extra + add }))

/-- The final loop of gtk_grid_request_allocate: derive each non-empty line's
allocated baseline from its minimum split and the row's baseline position
(or -1 when the line recorded no baseline). -/
def allocateBaselines (e : RequestEnv) (ls : Nat → GtkGridLine) :
    Nat → GtkGridLine :=
  fun i =>
    if i < e.n ∧ !(ls i).empty then
      let l := ls i
      if l.minimum_above ≠ -1 then
        match e.bp (e.linesMin + (i : Int)) with
        | .top => { l with allocated_baseline := l.minimum_above }
        | .center =>
          { l with allocated_baseline :=
              l.minimum_above +
                (l.allocation - (l.minimum_above + l.minimum_below)).tdiv 2 }
        | .bottom => { l with allocated_baseline := l.allocation - l.minimum_below }
      else { l with allocated_baseline := -1 }
    else ls i

/-- gtk_grid_request_allocate: distribute `total_size` over the lines.
`baseline` models gtk_widget_get_allocated_baseline on the grid widget.  When
a vertical pass has an ambient baseline and the baseline row carries baseline
data, the range is split at the baseline row and each side is budgeted
separately; otherwise a single window covers all lines.  Then either the
homogeneous even split (smaller of the two sides' shares) or the
non-homogeneous natural-size distribution assigns the allocations, and the
allocated baselines are derived. -/
def gtk_grid_request_allocate (e : RequestEnv) (baseline total_size : Int)
    (ls0 : Nat → GtkGridLine) : Nat → GtkGridLine :=
  let bIdx := (e.baseline_row - e.linesMin).toNat
  let splitData :=
    if e.vertical ∧ baseline ≠ -1 ∧
        e.linesMin ≤ e.baseline_row ∧ e.baseline_row < e.linesMin + (e.n : Int) ∧
        (ls0 bIdx).minimum_above ≠ -1 then
      let split := e.baseline_row - e.linesMin
      let split_pos := baseline - (ls0 bIdx).minimum_above
      let r1 := gtk_grid_request_compute_expand e 0 split ls0
      let r2 := gtk_grid_request_compute_expand e split (e.n : Int) r1.lines
      let sizes :=
        if r2.nonempty_lines > 0 then
          (split_pos - r1.nonempty_lines * e.spacing,
           (total_size - split_pos) - (r2.nonempty_lines - 1) * e.spacing)
        else
          (total_size - (r1.nonempty_lines - 1) * e.spacing, (0 : Int))
      (r2.lines, r1.nonempty_lines, r1.expand_lines,
       r2.nonempty_lines, r2.expand_lines, split, sizes.1, sizes.2)
    else
      let r := gtk_grid_request_compute_expand e 0 (e.n : Int) ls0
      (r.lines, r.nonempty_lines, r.expand_lines,
       (0 : Int), (0 : Int), (e.n : Int),
       total_size - (r.nonempty_lines - 1) * e.spacing, (0 : Int))
  let ls := splitData.1
  let nonempty1 := splitData.2.1
  let expand1 := splitData.2.2.1
  let nonempty2 := splitData.2.2.2.1
  let expand2 := splitData.2.2.2.2.1
  let split := splitData.2.2.2.2.2.1
  let size1 := splitData.2.2.2.2.2.2.1
  let size2 := splitData.2.2.2.2.2.2.2
  if nonempty1 = 0 ∧ nonempty2 = 0 then ls
  else
    let ls' :=
      if e.homogeneous then
        let er : Int × Int :=
          if nonempty1 > 0 then (size1.tdiv nonempty1, size1.tmod nonempty1)
          else (0, 0)
        let er : Int × Int :=
          if nonempty2 > 0 then
            let extra2 := size2.tdiv nonempty2
            if extra2 < er.1 ∨ nonempty1 = 0 then (extra2, size2.tmod nonempty2)
            else er
          else er
        homogeneousAssign er.1 (List.range e.n) er.2 ls
      else
        gtk_grid_distribute_non_homogeneous
          (gtk_grid_distribute_non_homogeneous ls nonempty1 expand1 size1 0 split)
          nonempty2 expand2 size2 split (e.n : Int)
    allocateBaselines e ls'

/-- The widget capability interface the grid consumes from each child
(§6 of the layout design): visibility, per-orientation expand flags
(gtk_widget_compute_expand), the non-contextual width request
(gtk_widget_get_preferred_width), the contextual width request
(gtk_widget_get_preferred_width_for_height), and the height-and-baseline
request, contextual on a width of -1 for the unconstrained case
(gtk_widget_get_preferred_height_and_baseline_for_width).  The height query
returns (minimum, natural, minimum_baseline, natural_baseline). -/
structure GtkWidget where
  visible : Bool
  hexpand : Bool
  vexpand : Bool
  pref_width : Int × Int
  width_for_height : Int → Int × Int
  height_for_width : Int → Int × Int × Int × Int

/-- Per-orientation cell attachment (struct GtkGridChildAttach). -/
structure GtkGridChildAttach where
  pos : Int
  span : Int
deriving DecidableEq, Repr

/-- A grid child: the widget plus its two attachments
(attach[GTK_ORIENTATION_HORIZONTAL] and attach[GTK_ORIENTATION_VERTICAL]). -/
structure GtkGridChild where
  widget : GtkWidget
  hattach : GtkGridChildAttach
  vattach : GtkGridChildAttach

/-- Select the attachment for an orientation (attach[orientation]). -/
def GtkGridChild.attach (c : GtkGridChild) (vertical : Bool) : GtkGridChildAttach :=
  if vertical then c.vattach else c.hattach

/-- Row/column specific persistent data (struct GtkGridLineData). -/
structure GtkGridLineData where
  spacing : Int
  homogeneous : Bool
deriving DecidableEq, Repr

/-- Sparse per-row properties (struct GtkGridRowProperties). -/
structure GtkGridRowProperties where
  row : Int
  baseline_position : GtkBaselinePosition
deriving DecidableEq, Repr

/-- The persistent grid state (struct GtkGridPrivate).  `hlinedata` is
linedata[GTK_ORIENTATION_HORIZONTAL] (used when solving the horizontal
orientation, i.e. column widths and column spacing), `vlinedata` is
linedata[GTK_ORIENTATION_VERTICAL]. -/
structure GtkGridPrivate where
  children : List GtkGridChild
  row_properties : List GtkGridRowProperties
  baseline_row : Int
  hlinedata : GtkGridLineData
  vlinedata : GtkGridLineData

/-- linedata[orientation]. -/
def GtkGridPrivate.linedata (g : GtkGridPrivate) (vertical : Bool) : GtkGridLineData :=
  if vertical then g.vlinedata else g.hlinedata

/-- gtk_grid_get_row_baseline_position: the stored baseline position of the
row, defaulting to CENTER when no entry exists. -/
def gtk_grid_get_row_baseline_position (g : GtkGridPrivate) (row : Int) :
    GtkBaselinePosition :=
  match g.row_properties.find? (fun p => p.row == row) with
  | some p => p.baseline_position
  | none => GtkBaselinePosition.center

/-- gtk_grid_request_count_lines: the (min, max) attachment range over all
children (visible or not), per orientation; returns
((hmin, hmax), (vmin, vmax)). -/
def gtk_grid_request_count_lines (children : List GtkGridChild) :
    (Int × Int) × (Int × Int) :=
  children.foldl
    (fun st c =>
      ((min st.1.1 c.hattach.pos, max st.1.2 (c.hattach.pos + c.hattach.span)),
       (min st.2.1 c.vattach.pos, max st.2.2 (c.vattach.pos + c.vattach.span))))
    ((G_MAXINT, G_MININT), (G_MAXINT, G_MININT))

/-- compute_request_for_child with contextual = FALSE: the horizontal pass
uses gtk_widget_get_preferred_width with baselines preset to -1; the vertical
pass uses the height-and-baseline query with width -1. -/
def compute_request_for_child (vertical : Bool) (c : GtkGridChild) :
    Int × Int × Int × Int :=
  if vertical then c.widget.height_for_width (-1)
  else (c.widget.pref_width.1, c.widget.pref_width.2, -1, -1)

/-- Sums allocations of the lines spanned by a child plus their spacing
(compute_allocation_for_child), over the opposite orientation's solved
lines. -/
def compute_allocation_for_child (oppLines : Nat → GtkGridLine)
    (oppSpacing oppLinesMin : Int) (a : GtkGridChildAttach) : Int :=
  (a.span - 1) * oppSpacing +
    sumOver (fun i => (oppLines ((a.pos - oppLinesMin).toNat + i)).allocation)
      a.span.toNat

/-- compute_request_for_child with contextual = TRUE: the cross size is the
child's allocation in the opposite orientation. -/
def compute_request_for_child_contextual (vertical : Bool) (size : Int)
    (c : GtkGridChild) : Int × Int × Int × Int :=
  if vertical then c.widget.height_for_width size
  else
    let wh := c.widget.width_for_height size
    (wh.1, wh.2, -1, -1)

/-- Project a grid child to the view one orientation's pass consumes,
resolving the widget queries non-contextually. -/
def toOriented (vertical : Bool) (linesMin : Int) (c : GtkGridChild) :
    OrientedChild :=
  let a := c.attach vertical
  let r := compute_request_for_child vertical c
  { visible := c.widget.visible
    computeExpand := if vertical then c.widget.vexpand else c.widget.hexpand
    idx := (a.pos - linesMin).toNat
    span := a.span.toNat
    minimum := r.1
    natural := r.2.1
    minimum_baseline := r.2.2.1
    natural_baseline := r.2.2.2 }

/-- Project a grid child contextually: the opposite orientation's lines must
already carry allocations. -/
def toOrientedContextual (vertical : Bool) (linesMin : Int)
    (oppLines : Nat → GtkGridLine) (oppSpacing oppLinesMin : Int)
    (c : GtkGridChild) : OrientedChild :=
  let a := c.attach vertical
  let size := compute_allocation_for_child oppLines oppSpacing oppLinesMin
    (c.attach (!vertical))
  let r := compute_request_for_child_contextual vertical size c
  { visible := c.widget.visible
    computeExpand := if vertical then c.widget.vexpand else c.widget.hexpand
    idx := (a.pos - linesMin).toNat
    span := a.span.toNat
    minimum := r.1
    natural := r.2.1
    minimum_baseline := r.2.2.1
    natural_baseline := r.2.2.2 }

/-- Build the solver environment for one orientation of a grid with children,
from the count_lines result and the orientation's line data. -/
def mkRequestEnv (g : GtkGridPrivate) (vertical : Bool)
    (children : List OrientedChild) : RequestEnv :=
  let cl := gtk_grid_request_count_lines g.children
  let lr := if vertical then cl.2 else cl.1
  { children := children
    n := (lr.2 - lr.1).toNat
    linesMin := lr.1
    spacing := (g.linedata vertical).spacing
    homogeneous := (g.linedata vertical).homogeneous
    vertical := vertical
    baseline_row := g.baseline_row
    bp := gtk_grid_get_row_baseline_position g }

/-- gtk_grid_get_size: the non-contextual preferred size of one orientation,
(minimum, natural, minimum_baseline, natural_baseline); zero size and -1
baselines are reported immediately when the grid has no children. -/
def gtk_grid_get_size (g : GtkGridPrivate) (vertical : Bool) :
    Int × Int × Int × Int :=
  if g.children.isEmpty then (0, 0, -1, -1)
  else
    let cl := gtk_grid_request_count_lines g.children
    let lr := if vertical then cl.2 else cl.1
    let e := mkRequestEnv g vertical (g.children.map (toOriented vertical lr.1))
    gtk_grid_request_sum e (gtk_grid_request_run e)

/-- gtk_grid_get_size_for_size: the contextual preferred size of one
orientation given `size` in the opposite orientation: solve the opposite
orientation non-contextually, allocate at least its minimum, then solve this
orientation contextually and sum.  `allocated_baseline` models
gtk_widget_get_allocated_baseline, read by the allocation step.  Reports
zeros and -1 baselines immediately when the grid has no children. -/
def gtk_grid_get_size_for_size (g : GtkGridPrivate) (vertical : Bool)
    (size allocated_baseline : Int) : Int × Int × Int × Int :=
  if g.children.isEmpty then (0, 0, -1, -1)
  else
    let cl := gtk_grid_request_count_lines g.children
    let lrOpp := if !vertical then cl.2 else cl.1
    let lr := if vertical then cl.2 else cl.1
    let eOpp := mkRequestEnv g (!vertical)
      (g.children.map (toOriented (!vertical) lrOpp.1))
    let oppRun := gtk_grid_request_run eOpp
    let oppSum := gtk_grid_request_sum eOpp oppRun
    let oppAlloc := gtk_grid_request_allocate eOpp allocated_baseline
      (max size oppSum.1) oppRun
    let e := mkRequestEnv g vertical
      (g.children.map
        (toOrientedContextual vertical lr.1 oppAlloc eOpp.spacing eOpp.linesMin))
    gtk_grid_request_sum e (gtk_grid_request_run e)

/-- grid_attach: prepend a new child record with the given attachments. -/
def grid_attach (g : GtkGridPrivate) (w : GtkWidget)
    (left top width height : Int) : GtkGridPrivate :=
  { g with children :=
      { widget := w
        hattach := { pos := left, span := width }
        vattach := { pos := top, span := height } } :: g.children }

/-- gtk_grid_attach: the public attach entry point.  Its g_return_if_fail
guards degrade to a no-op (with a console warning, not modelled) when the
child already has a parent or when width or height is not positive. -/
def gtk_grid_attach (g : GtkGridPrivate) (w : GtkWidget) (hasParent : Bool)
    (left top width height : Int) : GtkGridPrivate :=
  if hasParent then g
  else if ¬width > 0 then g
  else if ¬height > 0 then g
  else grid_attach g w left top width height

/-- gtk_grid_insert_row: children at or below the position move one row down,
children spanning across it grow by one row, and stored per-row properties at
or below the position move one row down with them. -/
def gtk_grid_insert_row (g : GtkGridPrivate) (position : Int) : GtkGridPrivate :=
  { g with
    children := g.children.map (fun c =>
      let top := c.vattach.pos
      let height := c.vattach.span
      if top ≥ position then
        { c with vattach := { c.vattach with pos := top + 1 } }
      else if top + height > position then
        { c with vattach := { c.vattach with span := height + 1 } }
      else c)
    row_properties := g.row_properties.map (fun p =>
      if p.row ≥ position then { p with row := p.row + 1 } else p) }

/-- gtk_grid_remove_row: children in the row are removed when their height
would drop to zero (gtk_container_remove), spanning children shrink by one
row, children below move up; the row_properties list is not touched. -/
def gtk_grid_remove_row (g : GtkGridPrivate) (position : Int) : GtkGridPrivate :=
  { g with
    children := g.children.filterMap (fun c =>
      let top := c.vattach.pos
      let height := c.vattach.span
      let height1 := if top ≤ position ∧ top + height > position then height - 1 else height
      let top1 := if top > position then top - 1 else top
      if height1 ≤ 0 then none
      else some { c with vattach := { pos := top1, span := height1 } }) }

/-- The observable state of one gtk_grid_get_size call: the C function writes
its results through out-pointers and only reads the persistent grid state, so
a call returns its result together with the (unchanged) grid. -/
def gtk_grid_get_size_call (g : GtkGridPrivate) (vertical : Bool) :
    (Int × Int × Int × Int) × GtkGridPrivate :=
  (gtk_grid_get_size g vertical, g)

/-- A minimal concrete widget for witness instantiations. -/
def witWidget : GtkWidget :=
  { visible := true
    hexpand := false
    vexpand := false
    pref_width := (10, 10)
    width_for_height := fun _ => (10, 10)
    height_for_width := fun _ => (7, 7, -1, -1) }

/-- A minimal concrete grid state for witness instantiations. -/
def witGrid : GtkGridPrivate :=
  { children := []
    row_properties := [{ row := 2, baseline_position := GtkBaselinePosition.top }]
    baseline_row := 0
    hlinedata := { spacing := 0, homogeneous := false }
    vlinedata := { spacing := 0, homogeneous := false } }

/-- A visible, non-expanding widget of fixed preferred width. -/
def fixedWidthWidget (mn nt : Int) : GtkWidget :=
  { visible := true
    hexpand := false
    vexpand := false
    pref_width := (mn, nt)
    width_for_height := fun _ => (mn, nt)
    height_for_width := fun _ => (5, 5, -1, -1) }

/-- Scenario A's grid: column spacing 5, two span-1 children at columns 0 and
1 with preferred widths 10 and 20. -/
def scenarioAGrid : GtkGridPrivate :=
  { children :=
      [{ widget := fixedWidthWidget 10 10
         hattach := { pos := 0, span := 1 }
         vattach := { pos := 0, span := 1 } },
       { widget := fixedWidthWidget 20 20
         hattach := { pos := 1, span := 1 }
         vattach := { pos := 0, span := 1 } }]
    row_properties := []
    baseline_row := 0
    hlinedata := { spacing := 5, homogeneous := false }
    vlinedata := { spacing := 0, homogeneous := false } }

/-- A small homogeneous solver environment for witness instantiations. -/
def witEnvHomogeneous : RequestEnv :=
  { children := [{ visible := true, computeExpand := false, idx := 0, span := 1,
                   minimum := 10, natural := 12 }]
    n := 2
    linesMin := 0
    spacing := 0
    homogeneous := true
    vertical := false
    baseline_row := 0
    bp := fun _ => GtkBaselinePosition.center }

/-- The sequence of per-line amounts produced by the sequential shortfall
division of gtk_grid_request_spanning: with `k` (force-)expanding lines left
and `e` units of shortfall left, the next expanding line receives
`e.tdiv k`, and the loop continues on the remainder with `k - 1` lines. -/
def distGains : Int → Nat → List Int
  | _, 0 => []
  | e, k + 1 => e.tdiv ((k : Int) + 1) :: distGains (e - e.tdiv ((k : Int) + 1)) k

/-- The number of (force-)expanding lines among the `cnt` spanned offsets
starting at `off` — the quantity the spanning distribution loop carries in its
`expand` counter. -/
def distCount (force : Bool) (ls : Nat → GtkGridLine) (pos : Nat) :
    Nat → Nat → Nat
  | 0, _ => 0
  | cnt + 1, off =>
    distCount force ls pos cnt (off + 1) +
      (if force || (ls (pos + off)).expand then 1 else 0)

/-- A span-2 child with minimum 3 over two zero lines: the claim's
remainder-to-earliest rule predicts gains (2,1); the code produces (1,2). -/
def c1WitChild : OrientedChild :=
  { visible := true, computeExpand := false, idx := 0, span := 2,
    minimum := 3, natural := 3 }

/-- Non-homogeneous single-child environment for the C1 instances. -/
def c1WitEnv : RequestEnv :=
  { children := [c1WitChild], n := 2, linesMin := 0, spacing := 0,
    homogeneous := false, vertical := false, baseline_row := 0,
    bp := fun _ => GtkBaselinePosition.center }

/-- All-zero lines (the request_init state restricted to sizes). -/
def c1WitLines : Nat → GtkGridLine := fun _ => {}

/-- Scenario D: the non-expanding span-1 child, minimum 10 natural 40. -/
def scenarioDChildA : OrientedChild :=
  { visible := true, computeExpand := false, idx := 0, span := 1,
    minimum := 10, natural := 40 }

/-- Scenario D: the expanding span-1 child, minimum 10 natural 40. -/
def scenarioDChildB : OrientedChild :=
  { visible := true, computeExpand := true, idx := 1, span := 1,
    minimum := 10, natural := 40 }

/-- Scenario D's solver environment: two lines of minimum 10 / natural 40,
only the second marked expand, spacing 0, non-homogeneous. -/
def scenarioDEnv : RequestEnv :=
  { children := [scenarioDChildA, scenarioDChildB], n := 2, linesMin := 0,
    spacing := 0, homogeneous := false, vertical := false, baseline_row := 0,
    bp := fun _ => GtkBaselinePosition.center }

/-- Scenario-D-shaped lines for the C5 witness. -/
def c5WitLines : Nat → GtkGridLine := fun i =>
  if i = 0 then { minimum := 10, natural := 40 }
  else if i = 1 then { minimum := 10, natural := 40, expand := true }
  else { empty := true }

/-- A span-2 child of minimum 10 for the C4 witness. -/
def c4WitChild : OrientedChild :=
  { visible := true, computeExpand := false, idx := 0, span := 2,
    minimum := 10, natural := 10 }

/-- A two-line non-homogeneous environment holding only `c4WitChild`. -/
def c4WitEnv : RequestEnv :=
  { children := [c4WitChild]
    n := 2
    linesMin := 0
    spacing := 0
    homogeneous := false
    vertical := false
    baseline_row := 0
    bp := fun _ => GtkBaselinePosition.top }

/-- A span-2 child of minimum 10 for the C4 counterexample. -/
def c4CexSpan : OrientedChild :=
  { visible := true, computeExpand := false, idx := 0, span := 2,
    minimum := 10, natural := 10 }

/-- A baseline-reporting span-1 child in the baseline row for the C4
counterexample. -/
def c4CexBase : OrientedChild :=
  { visible := true, computeExpand := false, idx := 1, span := 1,
    minimum := 10, natural := 10, minimum_baseline := 5, natural_baseline := 5 }

/-- A two-line homogeneous vertical environment whose baseline row carries
baseline data, used to exercise the baseline-split allocate path. -/
def c4CexEnv : RequestEnv :=
  { children := [c4CexSpan, c4CexBase]
    n := 2
    linesMin := 0
    spacing := 0
    homogeneous := true
    vertical := true
    baseline_row := 1
    bp := fun _ => GtkBaselinePosition.top }

/-- A list is unchanged by filterMap when the function maps every member to
itself. -/
theorem filterMap_id_of_mem {α : Type} (l : List α) (q : α → Option α)
    (h : ∀ x ∈ l, q x = some x) : l.filterMap q = l := by
  induction l with
  | nil => rfl
  | cons a t ih =>
    simp only [List.filterMap_cons, h a (by simp)]
    rw [ih (fun x hx => h x (by simp [hx]))]

/-- C9: gtk_grid_attach with a non-positive width or height degrades to a
no-op: the grid state (children and attachments) is unchanged. -/
theorem C9_attach_guard (g : GtkGridPrivate) (w : GtkWidget) (hasParent : Bool)
    (left top width height : Int) (h : width ≤ 0 ∨ height ≤ 0) :
    gtk_grid_attach g w hasParent left top width height = g := by
  unfold gtk_grid_attach
  split_ifs <;> first
    | rfl
    | (rcases h with h | h <;> omega)

/-- Witness for C9 at a concrete zero-width attach. -/
theorem C9_witness :
    ((0 : Int) ≤ 0 ∨ (1 : Int) ≤ 0) ∧
      gtk_grid_attach witGrid witWidget false 0 0 0 1 = witGrid :=
  ⟨Or.inl (by decide), C9_attach_guard witGrid witWidget false 0 0 0 1 (Or.inl (by decide))⟩

/-- C10: gtk_grid_insert_row shifts every stored per-row baseline-position
entry at or below the position one row down, but gtk_grid_remove_row leaves
the row_properties association list entirely unchanged; consequently after an
insert/remove round trip the stored entries remain shifted. -/
theorem C10_row_properties_frame (g : GtkGridPrivate) (p : Int) :
    (gtk_grid_insert_row g p).row_properties =
        g.row_properties.map
          (fun pr => if pr.row ≥ p then { pr with row := pr.row + 1 } else pr) ∧
      (gtk_grid_remove_row g p).row_properties = g.row_properties ∧
      (gtk_grid_remove_row (gtk_grid_insert_row g p) p).row_properties =
        g.row_properties.map
          (fun pr => if pr.row ≥ p then { pr with row := pr.row + 1 } else pr) :=
  ⟨rfl, rfl, rfl⟩

/-- C3: inserting a row at a position and then removing that row restores
every child's original top attachment and height (the grid's per-orientation
span invariant, height ≥ 1, is assumed). -/
theorem C3_insert_remove_row_roundtrip (g : GtkGridPrivate) (r : Int)
    (h : ∀ c ∈ g.children, 0 < c.vattach.span) :
    (gtk_grid_remove_row (gtk_grid_insert_row g r) r).children = g.children := by
  show (g.children.map _).filterMap _ = g.children
  rw [List.filterMap_map]
  apply filterMap_id_of_mem
  intro c hc
  have hspan := h c hc
  obtain ⟨w, ha, p, s⟩ := c
  simp only [Function.comp] at *
  by_cases h1 : p ≥ r
  · rw [if_pos h1]
    dsimp only
    rw [if_neg (by omega : ¬(p + 1 ≤ r ∧ p + 1 + s > r)),
      if_pos (by omega : p + 1 > r), if_neg (by omega : ¬s ≤ 0)]
    simp only [Option.some.injEq, GtkGridChild.mk.injEq, GtkGridChildAttach.mk.injEq,
      true_and, and_true]
    omega
  · rw [if_neg h1]
    by_cases h2 : p + s > r
    · rw [if_pos h2]
      dsimp only
      rw [if_pos (by omega : p ≤ r ∧ p + (s + 1) > r), if_neg (by omega : ¬p > r),
        if_neg (by omega : ¬s + 1 - 1 ≤ 0)]
      simp only [Option.some.injEq, GtkGridChild.mk.injEq, GtkGridChildAttach.mk.injEq,
        true_and, and_true]
      omega
    · rw [if_neg h2]
      dsimp only
      rw [if_neg (by omega : ¬(p ≤ r ∧ p + s > r)), if_neg (by omega : ¬p > r),
        if_neg (by omega : ¬s ≤ 0)]

/-- Witness for C3 on a one-child grid. -/
theorem C3_witness :
    (∀ c ∈ (grid_attach witGrid witWidget 0 1 1 2).children, 0 < c.vattach.span) ∧
      (gtk_grid_remove_row
          (gtk_grid_insert_row (grid_attach witGrid witWidget 0 1 1 2) 2) 2).children =
        (grid_attach witGrid witWidget 0 1 1 2).children := by
  refine ⟨?_, C3_insert_remove_row_roundtrip _ 2 ?_⟩ <;> decide

/-- C7: invoking gtk_grid_get_size twice in a row with no mutation in between
yields identical results: the call only reads the persistent grid state, so
the second call starts from the same state and returns the same
(minimum, natural, baselines). -/
theorem C7_get_size_idempotent (g : GtkGridPrivate) (vertical : Bool) :
    (gtk_grid_get_size_call (gtk_grid_get_size_call g vertical).2 vertical).1 =
        (gtk_grid_get_size_call g vertical).1 ∧
      (gtk_grid_get_size_call (gtk_grid_get_size_call g vertical).2 vertical).2 = g :=
  ⟨rfl, rfl⟩

/-- C8: a grid with no children reports minimum 0, natural 0 and baseline -1
from both the non-contextual and the contextual preferred-size queries, in
both orientations, returning before the rest of the layout pipeline runs. -/
theorem C8_empty_grid_zero (g : GtkGridPrivate) (h : g.children = [])
    (vertical : Bool) (size allocated_baseline : Int) :
    gtk_grid_get_size g vertical = (0, 0, -1, -1) ∧
      gtk_grid_get_size_for_size g vertical size allocated_baseline =
        (0, 0, -1, -1) := by
  constructor
  · unfold gtk_grid_get_size
    rw [if_pos (by simp [h])]
  · unfold gtk_grid_get_size_for_size
    rw [if_pos (by simp [h])]

/-- Witness for C8 at the concrete empty grid. -/
theorem C8_witness :
    witGrid.children = [] ∧
      gtk_grid_get_size witGrid true = (0, 0, -1, -1) ∧
      gtk_grid_get_size_for_size witGrid true 50 (-1) = (0, 0, -1, -1) :=
  ⟨rfl, C8_empty_grid_zero witGrid rfl true 50 (-1)⟩

/-- C6: a non-homogeneous grid with column spacing 5 and two visible span-1
children of preferred widths 10 and 20 at columns 0 and 1 reports preferred
width 10 + 20 + 5 = 35 (one spacing between the two non-empty lines, minimum
and natural alike, and no baseline). -/
theorem C6_scenario_A : gtk_grid_get_size scenarioAGrid false = (35, 35, -1, -1) := by
  decide

/-- When the orientation is homogeneous, every line of the clamp's output has
the maximal pre-clamp minimum and natural. -/
theorem homogeneous_clamp_spec (e : RequestEnv) (hh : e.homogeneous = true)
    (ls : Nat → GtkGridLine) (i : Nat) (hi : i < e.n) :
    ((gtk_grid_request_homogeneous e ls) i).minimum =
        maxOver (fun j => (ls j).minimum) e.n ∧
      ((gtk_grid_request_homogeneous e ls) i).natural =
        maxOver (fun j => (ls j).natural) e.n := by
  unfold gtk_grid_request_homogeneous
  rw [hh]
  simp [hi]

/-- C2: for a homogeneous orientation, after the size-request solve every
line's minimum (resp. natural) equals the maximum line minimum (resp.
natural) of the pre-homogenization state, i.e. of the lines as they stood
before the final homogeneous clamp. -/
theorem C2_homogeneous_clamp (e : RequestEnv) (hh : e.homogeneous = true)
    (i : Nat) (hi : i < e.n) :
    ((gtk_grid_request_run e) i).minimum =
        maxOver
          (fun j =>
            ((gtk_grid_request_spanning e
                (gtk_grid_request_homogeneous e
                  (gtk_grid_request_non_spanning e (gtk_grid_request_init e)))) j).minimum)
          e.n ∧
      ((gtk_grid_request_run e) i).natural =
        maxOver
          (fun j =>
            ((gtk_grid_request_spanning e
                (gtk_grid_request_homogeneous e
                  (gtk_grid_request_non_spanning e (gtk_grid_request_init e)))) j).natural)
          e.n := by
  have := homogeneous_clamp_spec e hh
    (gtk_grid_request_spanning e
      (gtk_grid_request_homogeneous e
        (gtk_grid_request_non_spanning e (gtk_grid_request_init e)))) i hi
  simpa [gtk_grid_request_run] using this

/-- Witness for C2 on a concrete homogeneous environment. -/
theorem C2_witness :
    witEnvHomogeneous.homogeneous = true ∧ 0 < witEnvHomogeneous.n ∧
      (((gtk_grid_request_run witEnvHomogeneous) 0).minimum =
          maxOver
            (fun j =>
              ((gtk_grid_request_spanning witEnvHomogeneous
                  (gtk_grid_request_homogeneous witEnvHomogeneous
                    (gtk_grid_request_non_spanning witEnvHomogeneous
                      (gtk_grid_request_init witEnvHomogeneous)))) j).minimum)
            witEnvHomogeneous.n ∧
        ((gtk_grid_request_run witEnvHomogeneous) 0).natural =
          maxOver
            (fun j =>
              ((gtk_grid_request_spanning witEnvHomogeneous
                  (gtk_grid_request_homogeneous witEnvHomogeneous
                    (gtk_grid_request_non_spanning witEnvHomogeneous
                      (gtk_grid_request_init witEnvHomogeneous)))) j).natural)
            witEnvHomogeneous.n) :=
  ⟨rfl, by decide, C2_homogeneous_clamp witEnvHomogeneous rfl 0 (by decide)⟩

/-- Element of a replicate list. -/
theorem getD_replicate {α : Type} (d a : α) :
    ∀ (n j : Nat), j < n → (List.replicate n a).getD j d = a := by
  intro n
  induction n with
  | zero => intro j hj; omega
  | succ m ih =>
    intro j hj
    cases j with
    | zero => simp [List.replicate_succ]
    | succ j' => simpa [List.replicate_succ] using ih j' (by omega)

/-- The sequential division loop deals `⌊e / k⌋` to the first
`k - e.tmod k` lines and `⌊e / k⌋ + 1` to the last `e.tmod k` lines: the
remainder units land on the LAST lines of the sequence. -/
theorem distGains_replicate :
    ∀ (k : Nat) (e : Int), 0 ≤ e → 1 ≤ k →
      distGains e k =
        List.replicate (k - (e.tmod k).toNat) (e.tdiv k) ++
          List.replicate (e.tmod k).toNat (e.tdiv k + 1) := by
  intro k
  induction k with
  | zero => intro e _ h1; omega
  | succ k ih =>
    intro e he _
    simp only [Nat.cast_add, Nat.cast_one]
    rcases Nat.eq_zero_or_pos k with hk | hk
    · subst hk
      simp [distGains, Int.tdiv_one, Int.tmod_one]
    · have hk1 : (0 : Int) < (k : Int) + 1 := by positivity
      set q0 := e.tdiv ((k : Int) + 1) with hq0
      set r0 := e.tmod ((k : Int) + 1) with hr0
      have hdm : ((k : Int) + 1) * q0 + r0 = e := by
        rw [hq0, hr0]; exact Int.tdiv_add_tmod e ((k : Int) + 1)
      have hr0n : 0 ≤ r0 := Int.tmod_nonneg _ he
      have hr0lt : r0 < (k : Int) + 1 := Int.tmod_lt_of_pos e hk1
      have hq0n : 0 ≤ q0 := Int.tdiv_nonneg he (by omega)
      have hsub : e - q0 = r0 + q0 * (k : Int) := by linear_combination -hdm
      have he' : 0 ≤ e - q0 := by
        rw [hsub]
        have : 0 ≤ q0 * (k : Int) := mul_nonneg hq0n (by positivity)
        omega
      have hkz : (k : Int) ≠ 0 := by omega
      have hdivE : (e - q0) / (k : Int) = r0 / (k : Int) + q0 := by
        rw [hsub]; exact Int.add_mul_ediv_right r0 q0 hkz
      have hmodE : (e - q0) % (k : Int) = r0 % (k : Int) := by
        rw [hsub]; exact Int.add_mul_emod_self
      have htd : (e - q0).tdiv (k : Int) = (e - q0) / (k : Int) :=
        Int.tdiv_eq_ediv he' (by positivity)
      have htm : (e - q0).tmod (k : Int) = (e - q0) % (k : Int) :=
        Int.tmod_eq_emod he' (by positivity)
      have hunfold : distGains e (k + 1) = q0 :: distGains (e - q0) k := rfl
      rcases lt_or_eq_of_le (by omega : r0 ≤ (k : Int)) with hcase | hcase
      · have hq1 : (e - q0).tdiv (k : Int) = q0 := by
          rw [htd, hdivE, Int.ediv_eq_zero_of_lt hr0n hcase, zero_add]
        have hr1 : (e - q0).tmod (k : Int) = r0 := by
          rw [htm, hmodE, Int.emod_eq_of_lt hr0n hcase]
        have hrec := ih (e - q0) he' hk
        rw [hq1, hr1] at hrec
        rw [hunfold, hrec]
        rw [← List.cons_append, ← List.replicate_succ]
        congr 2
        omega
      · have hq1 : (e - q0).tdiv (k : Int) = q0 + 1 := by
          rw [htd, hdivE, ← hcase, Int.ediv_self (by omega), add_comm]
        have hr1 : (e - q0).tmod (k : Int) = 0 := by
          rw [htm, hmodE, ← hcase, Int.emod_self]
        have hrec := ih (e - q0) he' hk
        rw [hq1, hr1] at hrec
        simp only [Int.toNat_zero, Nat.sub_zero, List.replicate_zero,
          List.append_nil] at hrec
        rw [hunfold, hrec]
        have h1 : (k + 1) - r0.toNat = 1 := by omega
        have h2 : r0.toNat = k := by omega
        rw [h1, h2]
        simp [List.replicate_succ]

/-- Indexed form of `distGains_replicate`: the `j`-th expanding line receives
the floor share when `j < k - e.tmod k`, and the floor share plus one
otherwise. -/
theorem distGains_getD (k : Nat) (e : Int) (he : 0 ≤ e) (hk : 1 ≤ k)
    (j : Nat) (hj : j < k) :
    (distGains e k).getD j 0 =
      if j < k - (e.tmod k).toNat then e.tdiv k else e.tdiv k + 1 := by
  rw [distGains_replicate k e he hk]
  have hrk : (e.tmod k).toNat ≤ k := by
    have h1 : e.tmod (k : Int) < (k : Int) := Int.tmod_lt_of_pos e (by positivity)
    omega
  by_cases hc : j < k - (e.tmod k).toNat
  · rw [if_pos hc, List.getD_append _ _ _ _ (by simpa using hc),
      getD_replicate _ _ _ _ hc]
  · rw [if_neg hc, List.getD_append_right _ _ _ _ (by simpa using hc),
      getD_replicate]
    simp only [List.length_replicate]
    omega

/-- Head decomposition of `sumOver`. -/
theorem sumOver_succ_head (g : Nat → Int) (n : Nat) :
    sumOver g (n + 1) = g 0 + sumOver (fun t => g (t + 1)) n := by
  unfold sumOver
  rw [List.range_succ_eq_map]
  simp only [List.map_cons, List.map_map, List.sum_cons]
  rfl

/-- Tail decomposition of `sumOver`. -/
theorem sumOver_succ (g : Nat → Int) (n : Nat) :
    sumOver g (n + 1) = sumOver g n + g n := by
  unfold sumOver
  rw [List.range_succ]
  simp

/-- `sumOver` only depends on the values below `n`. -/
theorem sumOver_congr {f g : Nat → Int} :
    ∀ n : Nat, (∀ i, i < n → f i = g i) → sumOver f n = sumOver g n := by
  intro n
  induction n with
  | zero => intro _; rfl
  | succ m ih =>
    intro h
    rw [sumOver_succ, sumOver_succ, ih (fun i hi => h i (by omega)), h m (by omega)]

/-- Pointwise bounds give `sumOver` bounds. -/
theorem sumOver_le_sumOver {f g : Nat → Int} :
    ∀ n : Nat, (∀ i, i < n → f i ≤ g i) → sumOver f n ≤ sumOver g n := by
  intro n
  induction n with
  | zero => intro _; exact le_refl 0
  | succ m ih =>
    intro h
    rw [sumOver_succ, sumOver_succ]
    exact add_le_add (ih (fun i hi => h i (by omega))) (h m (by omega))

/-- Sum of a constant. -/
theorem sumOver_const (c : Int) (n : Nat) : sumOver (fun _ => c) n = n * c := by
  induction n with
  | zero => simp [sumOver]
  | succ m ih => rw [sumOver_succ, ih]; push_cast; ring

/-- `distCount` only reads the expand flags. -/
theorem distCount_congr (force : Bool) {ls1 ls2 : Nat → GtkGridLine} (pos : Nat)
    (h : ∀ x, (ls1 x).expand = (ls2 x).expand) :
    ∀ cnt off, distCount force ls1 pos cnt off = distCount force ls2 pos cnt off := by
  intro cnt
  induction cnt with
  | zero => intro off; rfl
  | succ m ih => intro off; simp only [distCount, ih (off + 1), h (pos + off)]

/-- Splitting `distCount` at an intermediate offset. -/
theorem distCount_split (force : Bool) (ls : Nat → GtkGridLine) (pos : Nat) :
    ∀ a b off, distCount force ls pos (a + b) off =
      distCount force ls pos b (off + a) + distCount force ls pos a off := by
  intro a
  induction a with
  | zero => intro b off; simp [distCount]
  | succ m ih =>
    intro b off
    have h1 : m + 1 + b = (m + b) + 1 := by omega
    rw [h1]
    simp only [distCount]
    rw [ih b (off + 1)]
    have h2 : off + 1 + m = off + (m + 1) := by omega
    rw [h2]
    omega

/-- The rank of a distributing offset is below the total count. -/
theorem distCount_rank_lt (force : Bool) (ls : Nat → GtkGridLine) (pos : Nat)
    (cnt off t : Nat) (ht : t < cnt)
    (hd : (force || (ls (pos + off + t)).expand) = true) :
    distCount force ls pos t off < distCount force ls pos cnt off := by
  have h1 : cnt = t + (cnt - t) := by omega
  rw [h1, distCount_split]
  have h2 : cnt - t = (cnt - t - 1) + 1 := by omega
  rw [h2]
  simp only [distCount]
  have h3 : pos + (off + t) = pos + off + t := by omega
  rw [h3, hd]
  norm_num

/-- Reading back the updated index. -/
theorem setLine_same (ls : Nat → GtkGridLine) (i : Nat)
    (f : GtkGridLine → GtkGridLine) : setLine ls i f i = f (ls i) := by
  simp [setLine]

/-- Reading another index. -/
theorem setLine_other (ls : Nat → GtkGridLine) (i : Nat)
    (f : GtkGridLine → GtkGridLine) (x : Nat) (h : x ≠ i) :
    setLine ls i f x = ls x := by
  simp [setLine, h]

/-- The spanning distribution loop leaves lines outside its window
untouched. -/
theorem spanDistribute_frame (get : GtkGridLine → Int)
    (set : GtkGridLine → Int → GtkGridLine) (force : Bool) (pos : Nat) :
    ∀ (cnt off : Nat) (ls : Nat → GtkGridLine) (extra expand : Int) (x : Nat),
      (x < pos + off ∨ pos + off + cnt ≤ x) →
      spanDistribute get set force pos cnt off extra expand ls x = ls x := by
  intro cnt
  induction cnt with
  | zero => intro off ls extra expand x _; rfl
  | succ m ih =>
    intro off ls extra expand x hx
    simp only [spanDistribute]
    split
    · rw [ih (off + 1) _ _ _ x (by omega)]
      rw [setLine, if_neg (by omega)]
    · rw [ih (off + 1) _ _ _ x (by omega)]

/-- Fields untouched by `set` are preserved everywhere by the spanning
distribution loop. -/
theorem spanDistribute_preserves {α : Type} (get : GtkGridLine → Int)
    (set : GtkGridLine → Int → GtkGridLine) (P : GtkGridLine → α)
    (hP : ∀ l v, P (set l v) = P l) (force : Bool) (pos : Nat) :
    ∀ (cnt off : Nat) (ls : Nat → GtkGridLine) (extra expand : Int) (x : Nat),
      P (spanDistribute get set force pos cnt off extra expand ls x) = P (ls x) := by
  intro cnt
  induction cnt with
  | zero => intro off ls extra expand x; rfl
  | succ m ih =>
    intro off ls extra expand x
    simp only [spanDistribute]
    split
    · rw [ih]
      unfold setLine
      split
      · rw [hP]
      · rfl
    · rw [ih]

/-- If no spanned offset distributes, the loop is the identity. -/
theorem spanDistribute_zero (get : GtkGridLine → Int)
    (set : GtkGridLine → Int → GtkGridLine) (force : Bool) (pos : Nat) :
    ∀ (cnt off : Nat) (ls : Nat → GtkGridLine) (extra expand : Int),
      distCount force ls pos cnt off = 0 →
      spanDistribute get set force pos cnt off extra expand ls = ls := by
  intro cnt
  induction cnt with
  | zero => intro off ls extra expand _; rfl
  | succ m ih =>
    intro off ls extra expand hc
    simp only [distCount] at hc
    simp only [spanDistribute]
    split
    · next h =>
        simp only [h, if_true] at hc
        omega
    · exact ih (off + 1) ls extra expand (by omega)

/-- Full characterization of the spanning distribution loop when its `expand`
argument equals the count of (force-)expanding offsets (as it does in
gtk_grid_request_spanning): the `j`-th (force-)expanding offset in spanned
order receives the `j`-th element of `distGains extra K`, and every other
offset is untouched. -/
theorem spanDistribute_spec (get : GtkGridLine → Int)
    (set : GtkGridLine → Int → GtkGridLine)
    (hxp : ∀ l v, (set l v).expand = l.expand) (force : Bool) (pos : Nat) :
    ∀ (cnt off : Nat) (ls : Nat → GtkGridLine) (extra : Int) (t : Nat), t < cnt →
      spanDistribute get set force pos cnt off extra
          (distCount force ls pos cnt off : Int) ls (pos + off + t) =
        if force || (ls (pos + off + t)).expand then
          set (ls (pos + off + t))
            (get (ls (pos + off + t)) +
              (distGains extra (distCount force ls pos cnt off)).getD
                (distCount force ls pos t off) 0)
        else ls (pos + off + t) := by
  intro cnt
  induction cnt with
  | zero => intro off ls extra t ht; omega
  | succ m ih =>
    intro off ls extra t ht
    by_cases hd : (force || (ls (pos + off)).expand) = true
    · have hK : distCount force ls pos (m + 1) off =
          distCount force ls pos m (off + 1) + 1 := by
        simp only [distCount, hd]
        norm_num
      set dc := distCount force ls pos m (off + 1) with hdc
      have hKc : ((distCount force ls pos (m + 1) off : Nat) : Int) =
          (dc : Int) + 1 := by rw [hK]; push_cast; ring
      have hgains : distGains extra (distCount force ls pos (m + 1) off) =
          extra.tdiv ((dc : Int) + 1) ::
            distGains (extra - extra.tdiv ((dc : Int) + 1)) dc := by
        rw [hK]
        rfl
      have hstep : spanDistribute get set force pos (m + 1) off extra
          (distCount force ls pos (m + 1) off : Int) ls =
          spanDistribute get set force pos m (off + 1)
            (extra - extra.tdiv ((dc : Int) + 1)) ((dc : Int) + 1 - 1)
            (setLine ls (pos + off)
              (fun l => set l (get l + extra.tdiv ((dc : Int) + 1)))) := by
        rw [hKc]
        simp only [spanDistribute]
        rw [if_pos hd]
      have hls' : ∀ x, ((setLine ls (pos + off)
          (fun l => set l (get l + extra.tdiv ((dc : Int) + 1)))) x).expand =
          (ls x).expand := by
        intro x
        unfold setLine
        split
        · rw [hxp]
        · rfl
      have hdc' : distCount force (setLine ls (pos + off)
          (fun l => set l (get l + extra.tdiv ((dc : Int) + 1)))) pos m (off + 1) =
          dc :=
        distCount_congr force pos hls' m (off + 1)
      cases t with
      | zero =>
        simp only [Nat.add_zero]
        rw [hstep]
        rw [spanDistribute_frame get set force pos m (off + 1) _ _ _ _
          (Or.inl (by omega)), setLine_same]
        rw [if_pos hd, hgains]
        simp only [distCount, List.getD_cons_zero]
      | succ t' =>
        have hidx : pos + off + (t' + 1) = pos + (off + 1) + t' := by omega
        rw [hidx, hstep]
        have harg : (dc : Int) + 1 - 1 =
            ((distCount force (setLine ls (pos + off)
              (fun l => set l (get l + extra.tdiv ((dc : Int) + 1)))) pos m
                (off + 1) : Nat) : Int) := by
          rw [hdc']; ring
        rw [harg, ih (off + 1) _ _ t' (by omega)]
        have hne : pos + (off + 1) + t' ≠ pos + off := by omega
        have hlsv : (setLine ls (pos + off)
            (fun l => set l (get l + extra.tdiv ((dc : Int) + 1))))
              (pos + (off + 1) + t') = ls (pos + (off + 1) + t') :=
          setLine_other _ _ _ _ hne
        have hrank : distCount force ls pos (t' + 1) off =
            distCount force ls pos t' (off + 1) + 1 := by
          simp only [distCount, hd]
          norm_num
        have hrank' : distCount force (setLine ls (pos + off)
            (fun l => set l (get l + extra.tdiv ((dc : Int) + 1)))) pos t'
              (off + 1) = distCount force ls pos t' (off + 1) :=
          distCount_congr force pos hls' t' (off + 1)
        rw [hdc', hrank', hlsv, ← hidx, hrank, hgains, List.getD_cons_succ]
    · have hdf : (force || (ls (pos + off)).expand) = false := by
        simpa using hd
      have hK : distCount force ls pos (m + 1) off =
          distCount force ls pos m (off + 1) := by
        simp only [distCount, hdf]
        norm_num
      have hstep : spanDistribute get set force pos (m + 1) off extra
          (distCount force ls pos (m + 1) off : Int) ls =
          spanDistribute get set force pos m (off + 1) extra
            (distCount force ls pos (m + 1) off : Int) ls := by
        simp only [spanDistribute, hdf]
        norm_num
      cases t with
      | zero =>
        simp only [Nat.add_zero]
        rw [hstep]
        rw [spanDistribute_frame get set force pos m (off + 1) _ _ _ _
          (Or.inl (by omega))]
        rw [if_neg (by rw [hdf]; simp)]
      | succ t' =>
        have hidx : pos + off + (t' + 1) = pos + (off + 1) + t' := by omega
        rw [hidx, hstep, hK, ih (off + 1) ls extra t' (by omega)]
        have hrank : distCount force ls pos (t' + 1) off =
            distCount force ls pos t' (off + 1) := by
          simp only [distCount, hdf]
          norm_num
        rw [hrank, ← hidx]

/-- With forcing on, every spanned offset counts. -/
theorem distCount_true (ls : Nat → GtkGridLine) (pos : Nat) :
    ∀ cnt off, distCount true ls pos cnt off = cnt := by
  intro cnt
  induction cnt with
  | zero => intro off; rfl
  | succ m ih => intro off; simp [distCount, ih (off + 1)]

/-- The spanning pass's expanding-line accumulator `span_expand` (before
forcing) equals the `distCount` of the plain expand flags. -/
theorem sumOver_expand_eq_distCount (ls : Nat → GtkGridLine) (pos : Nat) :
    ∀ cnt off,
      sumOver (fun i => if (ls (pos + off + i)).expand then (1 : Int) else 0) cnt =
        (distCount false ls pos cnt off : Int) := by
  intro cnt
  induction cnt with
  | zero => intro off; rfl
  | succ m ih =>
    intro off
    rw [sumOver_succ_head]
    have h1 : sumOver (fun t =>
        if (ls (pos + off + (t + 1))).expand then (1 : Int) else 0) m =
        sumOver (fun t =>
          if (ls (pos + (off + 1) + t)).expand then (1 : Int) else 0) m := by
      apply sumOver_congr
      intro i _
      have : pos + off + (i + 1) = pos + (off + 1) + i := by omega
      rw [this]
    rw [h1, ih (off + 1)]
    simp only [distCount, Bool.false_or, Nat.add_zero]
    push_cast
    split <;> omega

/-- Value-level corollary of `spanDistribute_spec` (at window start 0): a
(force-)expanding offset's field grows by the floor share, or the floor share
plus one exactly on the last `extra.tmod K` expanding offsets; any other
offset is untouched. -/
theorem spanDistribute_gains (get : GtkGridLine → Int)
    (set : GtkGridLine → Int → GtkGridLine)
    (hxp : ∀ l v, (set l v).expand = l.expand)
    (hget : ∀ l v, get (set l v) = v) (force : Bool) (pos : Nat)
    (cnt : Nat) (ls : Nat → GtkGridLine) (extra : Int) (he : 0 ≤ extra)
    (t : Nat) (ht : t < cnt) :
    ((force || (ls (pos + t)).expand) = true →
      get (spanDistribute get set force pos cnt 0 extra
          (distCount force ls pos cnt 0 : Int) ls (pos + t)) =
        get (ls (pos + t)) +
          (if distCount force ls pos t 0 <
              distCount force ls pos cnt 0 -
                (extra.tmod ((distCount force ls pos cnt 0 : Nat) : Int)).toNat
           then extra.tdiv ((distCount force ls pos cnt 0 : Nat) : Int)
           else extra.tdiv ((distCount force ls pos cnt 0 : Nat) : Int) + 1)) ∧
    ((force || (ls (pos + t)).expand) = false →
      spanDistribute get set force pos cnt 0 extra
          (distCount force ls pos cnt 0 : Int) ls (pos + t) = ls (pos + t)) := by
  have hidx : pos + t = pos + 0 + t := by omega
  have hspec := spanDistribute_spec get set hxp force pos cnt 0 ls extra t ht
  constructor
  · intro hdt
    rw [hidx]
    rw [hspec, if_pos (by rw [← hidx]; exact hdt), hget]
    congr 1
    have hrank : distCount force ls pos t 0 < distCount force ls pos cnt 0 :=
      distCount_rank_lt force ls pos cnt 0 t ht (by rw [← hidx]; exact hdt)
    have hk : 1 ≤ distCount force ls pos cnt 0 := by omega
    rw [distGains_getD (distCount force ls pos cnt 0) extra he hk
      (distCount force ls pos t 0) hrank]
  · intro hdf
    rw [hidx, hspec, if_neg (by rw [← hidx, hdf]; simp)]

/-- The spanning pass's expanding-line sum `span_expand` (before forcing)
counts the expand flags of the spanned lines. -/
theorem se_eq_distCount (ls : Nat → GtkGridLine) (pos cnt : Nat) :
    sumOver (fun i => if (ls (pos + i)).expand then (1 : Int) else 0) cnt =
      (distCount false ls pos cnt 0 : Int) := by
  rw [← sumOver_expand_eq_distCount ls pos cnt 0]
  apply sumOver_congr
  intro i _
  have h : pos + 0 + i = pos + i := by omega
  rw [h]

/-- The `span_expand` value the spanning pass passes into its distribution
loops — the expand-flag count, or the full span when it is zero — equals
`distCount` under the corresponding forcing flag. -/
theorem span_expand_eq (ls : Nat → GtkGridLine) (pos cnt : Nat) :
    (if sumOver (fun i => if (ls (pos + i)).expand then (1 : Int) else 0) cnt = 0
     then (cnt : Int)
     else sumOver (fun i => if (ls (pos + i)).expand then (1 : Int) else 0) cnt) =
      ((distCount
          (decide (sumOver (fun i => if (ls (pos + i)).expand then (1 : Int) else 0)
            cnt = 0)) ls pos cnt 0 : Nat) : Int) := by
  by_cases h : sumOver (fun i => if (ls (pos + i)).expand then (1 : Int) else 0) cnt = 0
  · rw [if_pos h]
    have hd : decide (sumOver (fun i => if (ls (pos + i)).expand then (1 : Int) else 0)
        cnt = 0) = true := by simp [h]
    rw [hd, distCount_true]
  · rw [if_neg h]
    have hd : decide (sumOver (fun i => if (ls (pos + i)).expand then (1 : Int) else 0)
        cnt = 0) = false := by simp [h]
    rw [hd, se_eq_distCount]

/-- C1 (amended): in the spanning pass with homogeneous = false, for a
visible child with span > 1 whose minimum requirement exceeds the sum of its
spanned lines' minimums plus `(span-1)*spacing`, the shortfall `E` is
distributed over the expanding spanned lines (all spanned lines treated as
expanding when none is) by integer division: with `K` expanding lines, the
`j`-th expanding line in spanned order (rank `j`) gains `E.tdiv K` when
`j < K - E.tmod K` and `E.tdiv K + 1` otherwise, so the remainder goes one
unit per line to the LAST `E.tmod K` expanding lines — the latest line
indices, not the earliest as the claim states; non-expanding lines are
untouched; and analogously for the natural size. -/
theorem C1_spanning_shortfall_distribution (e : RequestEnv)
    (ls : Nat → GtkGridLine) (c : OrientedChild)
    (hh : e.homogeneous = false) (hv : c.visible = true) (hs : 2 ≤ c.span)
    (t : Nat) (ht : t < c.span)
    (se spanMin spanNat : Int) (F : Bool) (K : Nat)
    (hspanMin : spanMin = ((c.span : Int) - 1) * e.spacing +
      sumOver (fun i => (ls (c.idx + i)).minimum) c.span)
    (hspanNat : spanNat = ((c.span : Int) - 1) * e.spacing +
      sumOver (fun i => (ls (c.idx + i)).natural) c.span)
    (hse : se = sumOver (fun i => if (ls (c.idx + i)).expand then (1 : Int) else 0)
      c.span)
    (hF : F = decide (se = 0))
    (hK : K = distCount F ls c.idx c.span 0) :
    (spanMin < c.minimum →
      ((F || (ls (c.idx + t)).expand) = true →
        ((gtk_grid_request_spanning_child e ls c) (c.idx + t)).minimum =
          (ls (c.idx + t)).minimum +
            (if distCount F ls c.idx t 0 <
                K - ((c.minimum - spanMin).tmod (K : Int)).toNat
             then (c.minimum - spanMin).tdiv (K : Int)
             else (c.minimum - spanMin).tdiv (K : Int) + 1)) ∧
      ((F || (ls (c.idx + t)).expand) = false →
        ((gtk_grid_request_spanning_child e ls c) (c.idx + t)).minimum =
          (ls (c.idx + t)).minimum)) ∧
    (spanNat < c.natural →
      ((F || (ls (c.idx + t)).expand) = true →
        ((gtk_grid_request_spanning_child e ls c) (c.idx + t)).natural =
          (ls (c.idx + t)).natural +
            (if distCount F ls c.idx t 0 <
                K - ((c.natural - spanNat).tmod (K : Int)).toNat
             then (c.natural - spanNat).tdiv (K : Int)
             else (c.natural - spanNat).tdiv (K : Int) + 1)) ∧
      ((F || (ls (c.idx + t)).expand) = false →
        ((gtk_grid_request_spanning_child e ls c) (c.idx + t)).natural =
          (ls (c.idx + t)).natural)) := by
  subst hspanMin hspanNat hse hF hK
  have h1 : (!c.visible) = false := by rw [hv]; rfl
  simp only [gtk_grid_request_spanning_child, h1, Bool.false_eq_true, if_false,
    if_neg (show ¬c.span = 1 by omega), hh]
  rw [span_expand_eq ls c.idx c.span]
  constructor
  · intro hsm
    rw [if_pos hsm]
    have hg := spanDistribute_gains (fun l => l.minimum)
      (fun l v => { l with minimum := v }) (fun l v => rfl) (fun l v => rfl)
      (decide (sumOver (fun i => if (ls (c.idx + i)).expand then (1 : Int) else 0)
        c.span = 0)) c.idx c.span ls
      (c.minimum - (((c.span : Int) - 1) * e.spacing +
        sumOver (fun i => (ls (c.idx + i)).minimum) c.span))
      (by omega) t ht
    by_cases hsn : ((c.span : Int) - 1) * e.spacing +
        sumOver (fun i => (ls (c.idx + i)).natural) c.span < c.natural
    · rw [if_pos hsn]
      refine ⟨fun hdt => ?_, fun hdf => ?_⟩
      · rw [spanDistribute_preserves (fun l => l.natural)
          (fun l v => { l with natural := v }) (fun l => l.minimum)
          (fun l v => rfl) _ c.idx c.span 0 _ _ _ (c.idx + t)]
        exact hg.1 hdt
      · rw [spanDistribute_preserves (fun l => l.natural)
          (fun l v => { l with natural := v }) (fun l => l.minimum)
          (fun l v => rfl) _ c.idx c.span 0 _ _ _ (c.idx + t)]
        rw [hg.2 hdf]
    · rw [if_neg hsn]
      exact ⟨fun hdt => hg.1 hdt, fun hdf => by rw [hg.2 hdf]⟩
  · intro hsn
    rw [if_pos hsn]
    set F := decide (sumOver
      (fun i => if (ls (c.idx + i)).expand then (1 : Int) else 0) c.span = 0) with hF
    set ls1 := if ((c.span : Int) - 1) * e.spacing +
        sumOver (fun i => (ls (c.idx + i)).minimum) c.span < c.minimum then
        spanDistribute (fun l => l.minimum) (fun l v => { l with minimum := v })
          F c.idx c.span 0
          (c.minimum - (((c.span : Int) - 1) * e.spacing +
            sumOver (fun i => (ls (c.idx + i)).minimum) c.span))
          ((distCount F ls c.idx c.span 0 : Nat) : Int) ls
      else ls with hls1
    have hexp1 : ∀ x, (ls1 x).expand = (ls x).expand := by
      intro x
      rw [hls1]
      split
      · exact spanDistribute_preserves (fun l => l.minimum)
          (fun l v => { l with minimum := v }) (fun l => l.expand)
          (fun l v => rfl) F c.idx c.span 0 _ _ _ x
      · rfl
    have hnat1 : ∀ x, (ls1 x).natural = (ls x).natural := by
      intro x
      rw [hls1]
      split
      · exact spanDistribute_preserves (fun l => l.minimum)
          (fun l v => { l with minimum := v }) (fun l => l.natural)
          (fun l v => rfl) F c.idx c.span 0 _ _ _ x
      · rfl
    have hcnt : ∀ cnt off, distCount F ls1 c.idx cnt off = distCount F ls c.idx cnt off :=
      distCount_congr F c.idx hexp1
    have hg := spanDistribute_gains (fun l => l.natural)
      (fun l v => { l with natural := v }) (fun l v => rfl) (fun l v => rfl)
      F c.idx c.span ls1
      (c.natural - (((c.span : Int) - 1) * e.spacing +
        sumOver (fun i => (ls (c.idx + i)).natural) c.span)) (by omega) t ht
    refine ⟨fun hdt => ?_, fun hdf => ?_⟩
    · have h := hg.1 (by rw [hexp1]; exact hdt)
      simp only [] at h
      rw [hcnt c.span 0, hcnt t 0, hnat1] at h
      exact h
    · have h := hg.2 (by rw [hexp1]; exact hdf)
      rw [hcnt c.span 0] at h
      rw [h, hnat1]

/-- C1 counterexample: distributing a shortfall of 3 over the two (forced-)
expanding lines of a span-2 child leaves line minimums (1, 2): the remainder
unit went to the LAST spanned line, not the first as the claim requires
(which would give (2, 1)). -/
theorem C1_counterexample :
    ((gtk_grid_request_spanning c1WitEnv (gtk_grid_request_init c1WitEnv)) 0).minimum = 1 ∧
      ((gtk_grid_request_spanning c1WitEnv (gtk_grid_request_init c1WitEnv)) 1).minimum = 2 ∧
      ¬(((gtk_grid_request_spanning c1WitEnv (gtk_grid_request_init c1WitEnv)) 0).minimum = 2 ∧
        ((gtk_grid_request_spanning c1WitEnv (gtk_grid_request_init c1WitEnv)) 1).minimum = 1) := by
  decide

/-- Witness for the amended C1 at the concrete span-2 child, line offset 1. -/
theorem C1_witness :
    2 ≤ c1WitChild.span ∧
      (0 : Int) < c1WitChild.minimum -
        (((c1WitChild.span : Int) - 1) * c1WitEnv.spacing +
          sumOver (fun i => (c1WitLines (c1WitChild.idx + i)).minimum) c1WitChild.span) ∧
      ((gtk_grid_request_spanning_child c1WitEnv c1WitLines c1WitChild)
          (c1WitChild.idx + 1)).minimum = 2 :=
  ⟨by decide, by decide,
    (((C1_spanning_shortfall_distribution c1WitEnv c1WitLines c1WitChild rfl rfl
        (by decide) 1 (by decide) 0 0 0 true 2 (by decide) (by decide) (by decide)
        (by decide) (by decide)).1 (by decide)).1 (by decide)).trans (by decide)⟩

/-- `getD` through a map at an in-range index. -/
theorem getD_map_of_lt (f : Nat → Int) (l : List Nat) (k : Nat)
    (hk : k < l.length) : (l.map f).getD k 0 = f (l.getD k 0) := by
  rw [List.getD_eq_getElem _ _ (by simpa using hk), List.getD_eq_getElem _ _ hk,
    List.getElem_map]

/-- The total natural-minus-minimum gap of a line set. -/
theorem sum_gap (f g : Nat → Int) :
    ∀ l : List Nat, (∀ i ∈ l, f i ≤ g i) →
      (l.map (fun i => max 0 (g i - f i))).sum = (l.map g).sum - (l.map f).sum := by
  intro l
  induction l with
  | nil => intro _; simp
  | cons a t ih =>
    intro h
    simp only [List.map_cons, List.sum_cons]
    rw [ih (fun i hi => h i (by simp [hi]))]
    have := h a (by simp)
    have hm : max 0 (g a - f a) = g a - f a := by omega
    omega

/-- Gap sums are nonnegative. -/
theorem gap_sum_nonneg (f g : Nat → Int) :
    ∀ l : List Nat, 0 ≤ (l.map (fun i => max 0 (g i - f i))).sum := by
  intro l
  induction l with
  | nil => simp
  | cons a t ih =>
    simp only [List.map_cons, List.sum_cons]
    have : (0 : Int) ≤ max 0 (g a - f a) := le_max_left 0 _
    omega

/-- The natural-size distribution returns one grown size per request. -/
theorem dna_length (extra : Int) :
    ∀ sizes : List (Int × Int),
      (gtk_distribute_natural_allocation extra sizes).2.length = sizes.length := by
  intro sizes
  induction sizes generalizing extra with
  | nil => rfl
  | cons p t ih =>
    obtain ⟨m, n⟩ := p
    simp only [gtk_distribute_natural_allocation, List.length_cons]
    rw [ih]

/-- When the extra space covers the total gap, the natural-size distribution
grows every size to exactly its natural (minimum plus gap) and returns the
surplus beyond total-natural. -/
theorem dna_full :
    ∀ (sizes : List (Int × Int)) (extra : Int),
      (sizes.map (fun p => max 0 (p.2 - p.1))).sum ≤ extra →
      (gtk_distribute_natural_allocation extra sizes).1 =
          extra - (sizes.map (fun p => max 0 (p.2 - p.1))).sum ∧
        (gtk_distribute_natural_allocation extra sizes).2 =
          sizes.map (fun p => p.1 + max 0 (p.2 - p.1)) := by
  intro sizes
  induction sizes with
  | nil => intro extra _; constructor <;> simp [gtk_distribute_natural_allocation]
  | cons p t ih =>
    intro extra hges
    obtain ⟨m, n⟩ := p
    simp only [List.map_cons, List.sum_cons] at hges
    have htail : (0 : Int) ≤ (t.map (fun p => max 0 (p.2 - p.1))).sum :=
      List.sum_nonneg (fun x hx => by
        obtain ⟨p, _, rfl⟩ := List.mem_map.mp hx
        exact le_max_left 0 _)
    have hgap : (0 : Int) ≤ max 0 (n - m) := le_max_left 0 _
    have hmin : min extra (max 0 (n - m)) = max 0 (n - m) := by omega
    simp only [gtk_distribute_natural_allocation]
    rw [hmin]
    have := ih (extra - max 0 (n - m)) (by omega)
    refine ⟨?_, ?_⟩
    · rw [this.1]
      simp only [List.map_cons, List.sum_cons]
      ring
    · simp only [List.map_cons, this.2]

/-- The natural-size distribution never returns negative leftover. -/
theorem dna_leftover_nonneg :
    ∀ (sizes : List (Int × Int)) (extra : Int), 0 ≤ extra →
      0 ≤ (gtk_distribute_natural_allocation extra sizes).1 := by
  intro sizes
  induction sizes with
  | nil => intro extra he; exact he
  | cons p t ih =>
    intro extra he
    obtain ⟨m, n⟩ := p
    simp only [gtk_distribute_natural_allocation]
    apply ih
    have : (0 : Int) ≤ max 0 (n - m) := le_max_left 0 _
    omega

/-- The natural-size distribution never shrinks a size below its minimum. -/
theorem dna_grown_ge :
    ∀ (sizes : List (Int × Int)) (extra : Int), 0 ≤ extra →
      ∀ k, k < sizes.length →
        (sizes.getD k (0, 0)).1 ≤
          (gtk_distribute_natural_allocation extra sizes).2.getD k 0 := by
  intro sizes
  induction sizes with
  | nil => intro extra he k hk; simp at hk
  | cons p t ih =>
    intro extra he k hk
    obtain ⟨m, n⟩ := p
    have hgap : (0 : Int) ≤ max 0 (n - m) := le_max_left 0 _
    cases k with
    | zero =>
      simp only [gtk_distribute_natural_allocation, List.getD_cons_zero]
      omega
    | succ k' =>
      simp only [gtk_distribute_natural_allocation, List.getD_cons_succ]
      exact ih (extra - min extra (max 0 (n - m))) (by omega) k' (by simpa using hk)

/-- The allocation-assignment loop leaves indices outside its list alone. -/
theorem distributeAssign_frame (extra : Int) :
    ∀ (js : List Nat) (gs : List Int) (rest : Int) (ls : Nat → GtkGridLine)
      (x : Nat), x ∉ js → distributeAssign extra js gs rest ls x = ls x := by
  intro js
  induction js with
  | nil => intro gs rest ls x _; cases gs <;> rfl
  | cons j t ih =>
    intro gs rest ls x hx
    cases gs with
    | nil => rfl
    | cons g gs' =>
      simp only [distributeAssign]
      have hxj : x ≠ j := by intro h; exact hx (by simp [h])
      have hxt : x ∉ t := fun h => hx (by simp [h])
      split
      · rw [ih gs' _ _ x hxt, setLine_other _ _ _ x hxj]
      · rw [ih gs' _ _ x hxt, setLine_other _ _ _ x hxj]

/-- Full characterization of the allocation-assignment loop of
gtk_grid_distribute_non_homogeneous: every listed line receives its grown
size; expanding lines also receive `extra`, plus one unit exactly when their
expanding rank (in list order, earliest first) is below `rest`. -/
theorem distributeAssign_spec (extra : Int) :
    ∀ (js : List Nat), js.Nodup →
      ∀ (gs : List Int) (rest : Int) (ls : Nat → GtkGridLine),
        gs.length = js.length → 0 ≤ rest →
        ∀ k, k < js.length →
          distributeAssign extra js gs rest ls (js.getD k 0) =
            (if (ls (js.getD k 0)).expand then
              { ls (js.getD k 0) with allocation := gs.getD k 0 + extra +
                  (if (((js.take k).countP (fun j => (ls j).expand)) : Int) < rest
                   then 1 else 0) }
            else { ls (js.getD k 0) with allocation := gs.getD k 0 }) := by
  intro js
  induction js with
  | nil => intro _ gs rest ls _ _ k hk; simp at hk
  | cons j t ih =>
    intro hnd gs rest ls hlen hrest k hk
    cases gs with
    | nil => simp at hlen
    | cons g gs' =>
      have hjt : j ∉ t := (List.nodup_cons.mp hnd).1
      have hndt : t.Nodup := (List.nodup_cons.mp hnd).2
      simp only [distributeAssign]
      by_cases hje : (ls j).expand = true
      · rw [if_pos hje]
        cases k with
        | zero =>
          simp only [List.getD_cons_zero, List.take_zero, List.countP_nil,
            Nat.cast_zero]
          rw [distributeAssign_frame _ _ _ _ _ j hjt, setLine_same, if_pos hje]
        | succ k' =>
          have hk' : k' < t.length := by simpa using hk
          have hmem : t.getD k' 0 ∈ t := by
            rw [List.getD_eq_getElem _ _ hk']
            exact List.getElem_mem hk'
          have hne : t.getD k' 0 ≠ j := fun h => hjt (h ▸ hmem)
          simp only [List.getD_cons_succ]
          set add : Int := if rest > 0 then 1 else 0 with hadd
          have hrest' : 0 ≤ rest - add := by rw [hadd]; split <;> omega
          rw [ih hndt gs' (rest - add)
            (setLine ls j fun l => { l with allocation := g + extra + add })
            (by simpa using hlen) hrest' k' hk']
          have hsl : ∀ y, y ∈ t → (setLine ls j
              (fun l => { l with allocation := g + extra + add }) y) = ls y := by
            intro y hy
            exact setLine_other _ _ _ y (fun h => hjt (h ▸ hy))
          have hslv := hsl (t.getD k' 0) hmem
          rw [hslv]
          have hcp : (t.take k').countP (fun j' => ((setLine ls j
              (fun l => { l with allocation := g + extra + add })) j').expand) =
              (t.take k').countP (fun j' => (ls j').expand) := by
            apply List.countP_congr
            intro x hx
            rw [hsl x (List.mem_of_mem_take hx)]
          rw [hcp]
          have hcount : ((j :: t).take (k' + 1)).countP (fun j' => (ls j').expand) =
              (t.take k').countP (fun j' => (ls j').expand) + 1 := by
            simp only [List.take_succ_cons, List.countP_cons, hje]
            norm_num
          rw [hcount]
          have hiff : ((((t.take k').countP (fun j' => (ls j').expand)) : Int) <
              rest - add) ↔
              ((((t.take k').countP (fun j' => (ls j').expand)) + 1 : Nat) : Int) <
                rest := by
            rw [hadd]
            push_cast
            split <;> omega
          by_cases hc : (((t.take k').countP (fun j' => (ls j').expand)) : Int) <
              rest - add
          · rw [if_pos hc, if_pos (hiff.mp hc)]
          · rw [if_neg hc, if_neg (fun h => hc (hiff.mpr h))]
      · rw [if_neg hje]
        cases k with
        | zero =>
          simp only [List.getD_cons_zero]
          rw [distributeAssign_frame _ _ _ _ _ j hjt, setLine_same, if_neg hje]
        | succ k' =>
          have hk' : k' < t.length := by simpa using hk
          have hmem : t.getD k' 0 ∈ t := by
            rw [List.getD_eq_getElem _ _ hk']
            exact List.getElem_mem hk'
          simp only [List.getD_cons_succ]
          rw [ih hndt gs' rest
            (setLine ls j fun l => { l with allocation := g })
            (by simpa using hlen) hrest k' hk']
          have hsl : ∀ y, y ∈ t → (setLine ls j
              (fun l => { l with allocation := g }) y) = ls y := by
            intro y hy
            exact setLine_other _ _ _ y (fun h => hjt (h ▸ hy))
          rw [hsl (t.getD k' 0) hmem]
          have hcp : (t.take k').countP (fun j' => ((setLine ls j
              (fun l => { l with allocation := g })) j').expand) =
              (t.take k').countP (fun j' => (ls j').expand) := by
            apply List.countP_congr
            intro x hx
            rw [hsl x (List.mem_of_mem_take hx)]
          rw [hcp]
          have hcount : ((j :: t).take (k' + 1)).countP (fun j' => (ls j').expand) =
              (t.take k').countP (fun j' => (ls j').expand) := by
            simp only [List.take_succ_cons, List.countP_cons, hje]
            norm_num
          rw [hcount]

/-- C5: in the non-homogeneous distribution, once the budget covers the total
natural size, every non-empty non-expanding line is allocated exactly its
natural size, and the space beyond total-natural goes only to the expanding
lines, split evenly with the remainder one unit each to the earliest
expanding lines; concretely, allocating width 100 over scenario D's two lines
(minimum 10/10, natural 40/40, only the second expanding) gives the
non-expanding line its natural 40 and the expanding line all the slack, 60. -/
theorem C5_expand_distribution
    (ls : Nat → GtkGridLine) (nonempty expand size lo hi : Int)
    (js : List Nat)
    (hjs : js = (List.range' lo.toNat (hi - lo).toNat).filter (fun i => !(ls i).empty))
    (hne : ¬nonempty = 0)
    (hexp : expand = (js.countP (fun i => (ls i).expand) : Int))
    (hmn : ∀ i ∈ js, (ls i).minimum ≤ (ls i).natural)
    (hsize : (js.map (fun i => (ls i).natural)).sum ≤ size)
    (k : Nat) (hk : k < js.length) :
    ((ls (js.getD k 0)).expand = false →
      (gtk_grid_distribute_non_homogeneous ls nonempty expand size lo hi)
          (js.getD k 0) =
        { ls (js.getD k 0) with allocation := (ls (js.getD k 0)).natural }) ∧
    ((ls (js.getD k 0)).expand = true →
      (gtk_grid_distribute_non_homogeneous ls nonempty expand size lo hi)
          (js.getD k 0) =
        { ls (js.getD k 0) with allocation := (ls (js.getD k 0)).natural +
            (size - (js.map (fun i => (ls i).natural)).sum).tdiv expand +
            (if ((js.take k).countP (fun i => (ls i).expand) : Int) <
                (size - (js.map (fun i => (ls i).natural)).sum).tmod expand
             then 1 else 0) }) ∧
    ((gtk_grid_request_allocate scenarioDEnv (-1) 100
        (gtk_grid_request_run scenarioDEnv)) 0).allocation = 40 ∧
    ((gtk_grid_request_allocate scenarioDEnv (-1) 100
        (gtk_grid_request_run scenarioDEnv)) 1).allocation = 60 := by
  have hbody : gtk_grid_distribute_non_homogeneous ls nonempty expand size lo hi =
      distributeAssign
        (if expand > 0 then
          ((gtk_distribute_natural_allocation
            (max 0 (size - (js.map (fun i => (ls i).minimum)).sum))
            (js.map (fun i => ((ls i).minimum, (ls i).natural)))).1).tdiv expand
         else 0)
        js
        (gtk_distribute_natural_allocation
          (max 0 (size - (js.map (fun i => (ls i).minimum)).sum))
          (js.map (fun i => ((ls i).minimum, (ls i).natural)))).2
        (if expand > 0 then
          ((gtk_distribute_natural_allocation
            (max 0 (size - (js.map (fun i => (ls i).minimum)).sum))
            (js.map (fun i => ((ls i).minimum, (ls i).natural)))).1).tmod expand
         else 0)
        ls := by
    subst hjs
    simp only [gtk_grid_distribute_non_homogeneous]
    rw [if_neg hne]
  have hgapmap : (js.map (fun i => ((ls i).minimum, (ls i).natural))).map
      (fun p => max 0 (p.2 - p.1)) =
      js.map (fun i => max 0 ((ls i).natural - (ls i).minimum)) := by
    rw [List.map_map]
    rfl
  have hgapsum := sum_gap (fun i => (ls i).minimum) (fun i => (ls i).natural) js hmn
  simp only [] at hgapsum
  have hgapnn := gap_sum_nonneg (fun i => (ls i).minimum) (fun i => (ls i).natural) js
  have hminle : (js.map (fun i => (ls i).minimum)).sum ≤
      (js.map (fun i => (ls i).natural)).sum := by omega
  have hmax : max 0 (size - (js.map (fun i => (ls i).minimum)).sum) =
      size - (js.map (fun i => (ls i).minimum)).sum := by omega
  have hfull := dna_full (js.map (fun i => ((ls i).minimum, (ls i).natural)))
    (size - (js.map (fun i => (ls i).minimum)).sum)
    (by rw [hgapmap, hgapsum]; omega)
  have hgrown : (gtk_distribute_natural_allocation
      (size - (js.map (fun i => (ls i).minimum)).sum)
      (js.map (fun i => ((ls i).minimum, (ls i).natural)))).2 =
      js.map (fun i => (ls i).natural) := by
    rw [hfull.2, List.map_map]
    apply List.map_congr_left
    intro i hi
    have := hmn i hi
    simp only [Function.comp]
    omega
  have hleft : (gtk_distribute_natural_allocation
      (size - (js.map (fun i => (ls i).minimum)).sum)
      (js.map (fun i => ((ls i).minimum, (ls i).natural)))).1 =
      size - (js.map (fun i => (ls i).natural)).sum := by
    rw [hfull.1, hgapmap, hgapsum]
    ring_nf
  have hL : (0 : Int) ≤ size - (js.map (fun i => (ls i).natural)).sum := by omega
  have hnd : js.Nodup := by
    rw [hjs]
    exact List.Nodup.filter _ (List.nodup_range' _ _)
  have hlen : (gtk_distribute_natural_allocation
      (max 0 (size - (js.map (fun i => (ls i).minimum)).sum))
      (js.map (fun i => ((ls i).minimum, (ls i).natural)))).2.length = js.length := by
    rw [dna_length, List.length_map]
  have hrest : (0 : Int) ≤ (if expand > 0 then
      ((gtk_distribute_natural_allocation
        (max 0 (size - (js.map (fun i => (ls i).minimum)).sum))
        (js.map (fun i => ((ls i).minimum, (ls i).natural)))).1).tmod expand
     else 0) := by
    split
    · rw [hmax, hleft]
      exact Int.tmod_nonneg _ hL
    · exact le_refl 0
  have hspec := distributeAssign_spec
    (if expand > 0 then
      ((gtk_distribute_natural_allocation
        (max 0 (size - (js.map (fun i => (ls i).minimum)).sum))
        (js.map (fun i => ((ls i).minimum, (ls i).natural)))).1).tdiv expand
     else 0)
    js hnd
    (gtk_distribute_natural_allocation
      (max 0 (size - (js.map (fun i => (ls i).minimum)).sum))
      (js.map (fun i => ((ls i).minimum, (ls i).natural)))).2
    (if expand > 0 then
      ((gtk_distribute_natural_allocation
        (max 0 (size - (js.map (fun i => (ls i).minimum)).sum))
        (js.map (fun i => ((ls i).minimum, (ls i).natural)))).1).tmod expand
     else 0)
    ls hlen hrest k hk
  have hgsk : (gtk_distribute_natural_allocation
      (max 0 (size - (js.map (fun i => (ls i).minimum)).sum))
      (js.map (fun i => ((ls i).minimum, (ls i).natural)))).2.getD k 0 =
      (ls (js.getD k 0)).natural := by
    rw [hmax, hgrown, getD_map_of_lt _ _ _ hk]
  refine ⟨fun hje => ?_, fun hje => ?_, by decide, by decide⟩
  · rw [hbody, hspec, if_neg (by rw [hje]; simp), hgsk]
  · rw [hbody, hspec, if_pos hje, hgsk]
    have hexpos : expand > 0 := by
      have hmem : js.getD k 0 ∈ js := by
        rw [List.getD_eq_getElem _ _ hk]
        exact List.getElem_mem hk
      have : 0 < js.countP (fun i => (ls i).expand) :=
        List.countP_pos_iff.mpr ⟨js.getD k 0, hmem, hje⟩
      omega
    rw [if_pos hexpos, if_pos hexpos, hmax, hleft]

/-- Witness for C5 at the concrete two-line instance, expanding line 1. -/
theorem C5_witness :
    (∀ i ∈ ([0, 1] : List Nat), (c5WitLines i).minimum ≤ (c5WitLines i).natural) ∧
      (c5WitLines 1).expand = true ∧
      (gtk_grid_distribute_non_homogeneous c5WitLines 2 1 100 0 2) 1 =
        { c5WitLines 1 with allocation := 60 } :=
  ⟨by decide, by decide,
    ((C5_expand_distribution c5WitLines 2 1 100 0 2 [0, 1] (by decide) (by decide)
        (by decide) (by decide) (by decide) 1 (by decide)).2.1 (by decide)).trans
      (by decide)⟩

theorem maxOver_succ (g : Nat → Int) (n : Nat) :
    maxOver g (n + 1) = max (maxOver g n) (g n) := by
  unfold maxOver
  rw [List.range_succ, List.foldl_append]
  rfl

theorem maxOver_nonneg (g : Nat → Int) (n : Nat) : 0 ≤ maxOver g n := by
  induction n with
  | zero => exact le_refl 0
  | succ m ih => rw [maxOver_succ]; omega

theorem le_maxOver (g : Nat → Int) : ∀ n i, i < n → g i ≤ maxOver g n := by
  intro n
  induction n with
  | zero => intro i hi; omega
  | succ m ih =>
    intro i hi
    rw [maxOver_succ]
    rcases Nat.lt_succ_iff_lt_or_eq.mp hi with h | h
    · have := ih i h; omega
    · subst h; omega

theorem ceil_mul_ge (total : Int) (span : Nat) (hs : 1 ≤ span) :
    total ≤ (span : Int) *
      (total.tdiv (span : Int) + (if total.tmod (span : Int) ≠ 0 then 1 else 0)) := by
  have hdm := Int.tdiv_add_tmod total (span : Int)
  have hlt : total.tmod (span : Int) < (span : Int) :=
    Int.tmod_lt_of_pos total (by positivity)
  by_cases hr : total.tmod (span : Int) = 0
  · rw [if_neg (by simpa using hr), add_zero]
    omega
  · rw [if_pos hr]
    have hexpand : (span : Int) * (total.tdiv (span : Int) + 1) =
        (span : Int) * total.tdiv (span : Int) + (span : Int) := by ring
    omega

/-- Telescoping total of the spanning distribution loop: when at least one
offset distributes, the loop adds exactly `extra` in total. -/
theorem spanDistribute_sum (get : GtkGridLine → Int)
    (set : GtkGridLine → Int → GtkGridLine)
    (hget : ∀ l v, get (set l v) = v)
    (hxp : ∀ l v, (set l v).expand = l.expand) (force : Bool) (pos : Nat) :
    ∀ (cnt off : Nat) (ls : Nat → GtkGridLine) (extra : Int),
      1 ≤ distCount force ls pos cnt off →
      sumOver (fun t => get (spanDistribute get set force pos cnt off extra
        (distCount force ls pos cnt off : Int) ls (pos + off + t))) cnt =
      sumOver (fun t => get (ls (pos + off + t))) cnt + extra := by
  intro cnt
  induction cnt with
  | zero => intro off ls extra h1; simp [distCount] at h1
  | succ m ih =>
    intro off ls extra h1
    by_cases hd : (force || (ls (pos + off)).expand) = true
    · have hK : distCount force ls pos (m + 1) off =
          distCount force ls pos m (off + 1) + 1 := by
        simp only [distCount, hd]; norm_num
      set dc := distCount force ls pos m (off + 1) with hdc
      have hKc : ((distCount force ls pos (m + 1) off : Nat) : Int) =
          (dc : Int) + 1 := by rw [hK]; push_cast; ring
      have hstep : spanDistribute get set force pos (m + 1) off extra
          (distCount force ls pos (m + 1) off : Int) ls =
          spanDistribute get set force pos m (off + 1)
            (extra - extra.tdiv ((dc : Int) + 1)) ((dc : Int) + 1 - 1)
            (setLine ls (pos + off)
              (fun l => set l (get l + extra.tdiv ((dc : Int) + 1)))) := by
        rw [hKc]
        simp only [spanDistribute]
        rw [if_pos hd]
      set le := extra.tdiv ((dc : Int) + 1) with hle
      set ls' := setLine ls (pos + off) (fun l => set l (get l + le)) with hls'
      have hexp' : ∀ x, (ls' x).expand = (ls x).expand := by
        intro x
        rw [hls']
        unfold setLine
        split
        · rw [hxp]
        · rfl
      have hdc' : distCount force ls' pos m (off + 1) = dc :=
        distCount_congr force pos hexp' m (off + 1)
      have hval' : ∀ y, y ≠ pos + off → ls' y = ls y := by
        intro y hy
        rw [hls']
        exact setLine_other _ _ _ y hy
      rw [hstep, sumOver_succ_head, sumOver_succ_head]
      simp only [Nat.add_zero]
      have hhead : get (spanDistribute get set force pos m (off + 1) (extra - le)
          ((dc : Int) + 1 - 1) ls' (pos + off)) = get (ls (pos + off)) + le := by
        have hfr := spanDistribute_frame get set force pos m (off + 1) ls'
          (extra - le) ((dc : Int) + 1 - 1) (pos + off) (Or.inl (by omega))
        rw [hfr, hls', setLine_same, hget]
      rw [hhead]
      have harg : (dc : Int) + 1 - 1 = ((distCount force ls' pos m (off + 1) : Nat) : Int) := by
        rw [hdc']; ring
      rcases Nat.eq_zero_or_pos dc with hz | hp
    -- dc = 0: no further distributing offsets; le = extra
      · have hle1 : le = extra := by
          rw [hle, hz]
          norm_num [Int.tdiv_one]
        have hzero : spanDistribute get set force pos m (off + 1) (extra - le)
            ((dc : Int) + 1 - 1) ls' = ls' := by
          apply spanDistribute_zero
          rw [hdc', hz]
        rw [hzero]
        have htail : sumOver (fun t => get (ls' (pos + off + (t + 1)))) m =
            sumOver (fun t => get (ls (pos + off + (t + 1)))) m := by
          apply sumOver_congr
          intro i _
          rw [hval' _ (by omega)]
        rw [htail]
        omega
      · have hrec := ih (off + 1) ls' (extra - le) (by rw [hdc']; omega)
        rw [← harg] at hrec
        have hidx : ∀ t : Nat, pos + off + (t + 1) = pos + (off + 1) + t := by
          intro t; omega
        have htail1 : sumOver (fun t => get (spanDistribute get set force pos m (off + 1)
            (extra - le) ((dc : Int) + 1 - 1) ls'
            (pos + off + (t + 1)))) m =
            sumOver (fun t => get (spanDistribute get set force pos m (off + 1)
              (extra - le) ((dc : Int) + 1 - 1) ls'
              (pos + (off + 1) + t))) m := by
          apply sumOver_congr
          intro i _
          rw [hidx i]
        have htail2 : sumOver (fun t => get (ls' (pos + (off + 1) + t))) m =
            sumOver (fun t => get (ls (pos + off + (t + 1)))) m := by
          apply sumOver_congr
          intro i _
          rw [hidx i, hval' _ (by omega)]
        rw [htail1, hrec, htail2]
        omega
    · have hdf : (force || (ls (pos + off)).expand) = false := by simpa using hd
      have hK : distCount force ls pos (m + 1) off =
          distCount force ls pos m (off + 1) := by
        simp only [distCount, hdf]; norm_num
      have hstep : spanDistribute get set force pos (m + 1) off extra
          (distCount force ls pos (m + 1) off : Int) ls =
          spanDistribute get set force pos m (off + 1) extra
            (distCount force ls pos (m + 1) off : Int) ls := by
        simp only [spanDistribute, hdf]
        norm_num
      rw [hstep, sumOver_succ_head, sumOver_succ_head]
      simp only [Nat.add_zero]
      have hhead : get (spanDistribute get set force pos m (off + 1) extra
          (distCount force ls pos (m + 1) off : Int) ls (pos + off)) =
          get (ls (pos + off)) := by
        have hfr := spanDistribute_frame get set force pos m (off + 1) ls
          extra (distCount force ls pos (m + 1) off : Int) (pos + off)
          (Or.inl (by omega))
        rw [hfr]
      rw [hhead]
      have hrec := ih (off + 1) ls extra (by omega)
      rw [← hK] at hrec
      have hidx : ∀ t : Nat, pos + off + (t + 1) = pos + (off + 1) + t := by
        intro t; omega
      have htail1 : sumOver (fun t => get (spanDistribute get set force pos m (off + 1)
          extra (distCount force ls pos (m + 1) off : Int) ls (pos + off + (t + 1)))) m =
          sumOver (fun t => get (spanDistribute get set force pos m (off + 1)
            extra (distCount force ls pos (m + 1) off : Int) ls (pos + (off + 1) + t))) m := by
        apply sumOver_congr
        intro i _
        rw [hidx i]
      have htail2 : sumOver (fun t => get (ls (pos + (off + 1) + t))) m =
          sumOver (fun t => get (ls (pos + off + (t + 1)))) m := by
        apply sumOver_congr
        intro i _
        rw [hidx i]
      rw [htail1, hrec, htail2]
      omega

theorem tdiv_le_self_of_nonneg (a b : Int) (ha : 0 ≤ a) (hb : 1 ≤ b) :
    a.tdiv b ≤ a := by
  rw [Int.tdiv_eq_ediv ha (by omega)]
  exact Int.ediv_le_self _ ha

/-- The spanning shortfall loop never decreases the distributed field when the
remaining shortfall is nonnegative and the expand counter dominates the count
of distributing offsets. -/
theorem spanDistribute_ge (get : GtkGridLine → Int)
    (set : GtkGridLine → Int → GtkGridLine)
    (hget : ∀ l v, get (set l v) = v)
    (hxp : ∀ l v, (set l v).expand = l.expand) (force : Bool) (pos : Nat) :
    ∀ (cnt off : Nat) (ls : Nat → GtkGridLine) (extra expand : Int) (x : Nat),
      0 ≤ extra → (distCount force ls pos cnt off : Int) ≤ expand →
      get (ls x) ≤ get (spanDistribute get set force pos cnt off extra expand ls x) := by
  intro cnt
  induction cnt with
  | zero => intro off ls extra expand x he _; exact le_refl _
  | succ m ih =>
    intro off ls extra expand x he hce
    by_cases hd : (force || (ls (pos + off)).expand) = true
    · have hK : distCount force ls pos (m + 1) off =
          distCount force ls pos m (off + 1) + 1 := by
        simp only [distCount, hd]; norm_num
      rw [hK] at hce
      push_cast at hce
      have hnn : (0 : Int) ≤ (distCount force ls pos m (off + 1) : Int) :=
        Int.natCast_nonneg _
      have hex1 : (1 : Int) ≤ expand := by omega
      simp only [spanDistribute]
      rw [if_pos hd]
      have hle0 : 0 ≤ extra.tdiv expand := Int.tdiv_nonneg he (by omega)
      have hlee : extra.tdiv expand ≤ extra :=
        tdiv_le_self_of_nonneg extra expand he hex1
      have hexp2 : ∀ y,
          ((setLine ls (pos + off) (fun l => set l (get l + extra.tdiv expand))) y).expand =
            (ls y).expand := by
        intro y
        unfold setLine
        split
        · rw [hxp]
        · rfl
      have hdc2 : ((distCount force
          (setLine ls (pos + off) (fun l => set l (get l + extra.tdiv expand)))
          pos m (off + 1) : Nat) : Int) ≤ expand - 1 := by
        rw [distCount_congr force pos hexp2 m (off + 1)]
        omega
      have hrec := ih (off + 1)
        (setLine ls (pos + off) (fun l => set l (get l + extra.tdiv expand)))
        (extra - extra.tdiv expand) (expand - 1) x (by omega) hdc2
      refine le_trans ?_ hrec
      by_cases hx : x = pos + off
      · subst hx
        rw [setLine_same, hget]
        omega
      · rw [setLine_other _ _ _ x hx]
    · have hdf : (force || (ls (pos + off)).expand) = false := by simpa using hd
      have hK : distCount force ls pos (m + 1) off =
          distCount force ls pos m (off + 1) := by
        simp only [distCount, hdf]; norm_num
      have hstep : spanDistribute get set force pos (m + 1) off extra expand ls =
          spanDistribute get set force pos m (off + 1) extra expand ls := by
        simp only [spanDistribute, hdf]
        norm_num
      rw [hstep]
      exact ih (off + 1) ls extra expand x he (by rw [← hK]; exact hce)

/-- The homogeneous clamp of a span never decreases the clamped field. -/
theorem spanClamp_ge (get : GtkGridLine → Int)
    (set : GtkGridLine → Int → GtkGridLine)
    (hget : ∀ l v, get (set l v) = v)
    (pos span : Nat) (m : Int) (ls : Nat → GtkGridLine) (x : Nat) :
    get (ls x) ≤ get (spanClamp get set pos span m ls x) := by
  unfold spanClamp
  split
  · rw [hget]
    exact le_max_left _ _
  · exact le_refl _

/-- Inside the clamped window the clamped field reaches at least `m`. -/
theorem spanClamp_reaches (get : GtkGridLine → Int)
    (set : GtkGridLine → Int → GtkGridLine)
    (hget : ∀ l v, get (set l v) = v)
    (pos span : Nat) (m : Int) (ls : Nat → GtkGridLine) (x : Nat)
    (hx : pos ≤ x ∧ x < pos + span) :
    m ≤ get (spanClamp get set pos span m ls x) := by
  unfold spanClamp
  rw [if_pos hx, hget]
  exact le_max_right _ _

/-- The homogeneous clamp only writes through `set`. -/
theorem spanClamp_preserves {α : Type} (get : GtkGridLine → Int)
    (set : GtkGridLine → Int → GtkGridLine) (P : GtkGridLine → α)
    (hP : ∀ l v, P (set l v) = P l)
    (pos span : Nat) (m : Int) (ls : Nat → GtkGridLine) (x : Nat) :
    P (spanClamp get set pos span m ls x) = P (ls x) := by
  unfold spanClamp
  split
  · rw [hP]
  · rfl

/-- The natural-size half of the spanning loop body never touches minimums. -/
theorem natpass_min_eq (c1 c2 : Prop) [Decidable c1] [Decidable c2] (F : Bool)
    (pos span : Nat) (m E X : Int) (ls1 : Nat → GtkGridLine) (x : Nat) :
    ((if c1 then
        (if c2 then
          spanClamp (fun l => l.natural) (fun l v => { l with natural := v })
            pos span m ls1
        else
          spanDistribute (fun l => l.natural) (fun l v => { l with natural := v })
            F pos span 0 E X ls1)
      else ls1) x).minimum = (ls1 x).minimum := by
  split
  · split
    · exact spanClamp_preserves (fun l => l.natural)
        (fun l v => { l with natural := v }) (fun l => l.minimum) (fun _ _ => rfl)
        pos span m ls1 x
    · exact spanDistribute_preserves (fun l => l.natural)
        (fun l v => { l with natural := v }) (fun l => l.minimum) (fun _ _ => rfl)
        F pos span 0 ls1 E X x
  · rfl

/-- The minimum-size half of the spanning loop body never decreases a line
minimum. -/
theorem minpass_min_mono (c2 : Prop) [Decidable c2] (pos span : Nat)
    (cm sm m : Int) (ls : Nat → GtkGridLine) (x : Nat) (F : Bool) (X : Int)
    (hX : (distCount F ls pos span 0 : Int) ≤ X) :
    (ls x).minimum ≤
      ((if sm < cm then
          (if c2 then
            spanClamp (fun l => l.minimum) (fun l v => { l with minimum := v })
              pos span m ls
          else
            spanDistribute (fun l => l.minimum) (fun l v => { l with minimum := v })
              F pos span 0 (cm - sm) X ls)
        else ls) x).minimum := by
  split
  next hlt =>
    split
    · exact spanClamp_ge (fun l => l.minimum) (fun l v => { l with minimum := v })
        (fun _ _ => rfl) pos span m ls x
    · exact spanDistribute_ge (fun l => l.minimum)
        (fun l v => { l with minimum := v }) (fun _ _ => rfl) (fun _ _ => rfl)
        F pos span 0 ls (cm - sm) X x (by omega) hX
  next => exact le_refl _

/-- One spanning loop body step never decreases any line minimum. -/
theorem spanning_child_min_mono (e : RequestEnv) (c : OrientedChild)
    (ls : Nat → GtkGridLine) (x : Nat) :
    (ls x).minimum ≤ ((gtk_grid_request_spanning_child e ls c) x).minimum := by
  simp only [gtk_grid_request_spanning_child]
  split
  · exact le_refl _
  split
  · exact le_refl _
  rw [natpass_min_eq]
  exact minpass_min_mono _ c.idx c.span c.minimum _ _ ls x _ _
    (le_of_eq (span_expand_eq ls c.idx c.span).symm)

/-- Processing a visible spanning child makes its spanned minimum total cover
its own minimum. -/
theorem spanning_child_estab (e : RequestEnv) (c : OrientedChild)
    (ls : Nat → GtkGridLine) (hv : c.visible = true) (hs : 2 ≤ c.span) :
    c.minimum ≤ ((c.span : Int) - 1) * e.spacing +
      sumOver (fun i => ((gtk_grid_request_spanning_child e ls c) (c.idx + i)).minimum)
        c.span := by
  simp only [gtk_grid_request_spanning_child]
  rw [if_neg (by simp [hv]), if_neg (by omega : ¬c.span = 1)]
  rw [sumOver_congr c.span (fun i _ => natpass_min_eq _ _ _ c.idx c.span _ _ _ _ _)]
  by_cases hlt : ((c.span : Int) - 1) * e.spacing +
      sumOver (fun i => (ls (c.idx + i)).minimum) c.span < c.minimum
  · rw [sumOver_congr c.span (fun i _ => by rw [if_pos hlt])]
    by_cases hh : e.homogeneous = true
    · rw [sumOver_congr c.span (fun i _ => by rw [if_pos hh])]
      have hge : sumOver (fun _ => (c.minimum - ((c.span : Int) - 1) * e.spacing).tdiv
            (c.span : Int) +
            (if (c.minimum - ((c.span : Int) - 1) * e.spacing).tmod (c.span : Int) ≠ 0
             then 1 else 0)) c.span ≤
          sumOver (fun i =>
            (spanClamp (fun l => l.minimum) (fun l v => { l with minimum := v })
              c.idx c.span
              ((c.minimum - ((c.span : Int) - 1) * e.spacing).tdiv (c.span : Int) +
                (if (c.minimum - ((c.span : Int) - 1) * e.spacing).tmod (c.span : Int) ≠ 0
                 then 1 else 0)) ls (c.idx + i)).minimum) c.span := by
        apply sumOver_le_sumOver
        intro i hi
        exact spanClamp_reaches (fun l => l.minimum)
          (fun l v => { l with minimum := v }) (fun _ _ => rfl) c.idx c.span _ ls
          (c.idx + i) (by omega)
      rw [sumOver_const] at hge
      have hceil := ceil_mul_ge (c.minimum - ((c.span : Int) - 1) * e.spacing)
        c.span (by omega)
      linarith
    · rw [sumOver_congr c.span (fun i _ => by rw [if_neg hh])]
      have hdc1 : 1 ≤ distCount
          (decide (sumOver (fun i => if (ls (c.idx + i)).expand then (1 : Int) else 0)
            c.span = 0)) ls c.idx c.span 0 := by
        by_cases hse : sumOver
            (fun i => if (ls (c.idx + i)).expand then (1 : Int) else 0) c.span = 0
        · rw [decide_eq_true hse, distCount_true]
          omega
        · rw [decide_eq_false hse]
          have h1 := se_eq_distCount ls c.idx c.span
          rw [h1] at hse
          omega
      have hexq := span_expand_eq ls c.idx c.span
      rw [hexq]
      have hsum := spanDistribute_sum (fun l => l.minimum)
        (fun l v => { l with minimum := v }) (fun _ _ => rfl) (fun _ _ => rfl)
        (decide (sumOver (fun i => if (ls (c.idx + i)).expand then (1 : Int) else 0)
          c.span = 0)) c.idx c.span 0 ls
        (c.minimum - (((c.span : Int) - 1) * e.spacing +
          sumOver (fun i => (ls (c.idx + i)).minimum) c.span)) hdc1
      have hidx1 : sumOver (fun i =>
          (spanDistribute (fun l => l.minimum) (fun l v => { l with minimum := v })
            (decide (sumOver (fun i => if (ls (c.idx + i)).expand then (1 : Int) else 0)
              c.span = 0)) c.idx c.span 0
            (c.minimum - (((c.span : Int) - 1) * e.spacing +
              sumOver (fun i => (ls (c.idx + i)).minimum) c.span))
            ((distCount
              (decide (sumOver (fun i => if (ls (c.idx + i)).expand then (1 : Int) else 0)
                c.span = 0)) ls c.idx c.span 0 : Nat) : Int) ls (c.idx + i)).minimum)
            c.span =
          sumOver (fun t =>
          (spanDistribute (fun l => l.minimum) (fun l v => { l with minimum := v })
            (decide (sumOver (fun i => if (ls (c.idx + i)).expand then (1 : Int) else 0)
              c.span = 0)) c.idx c.span 0
            (c.minimum - (((c.span : Int) - 1) * e.spacing +
              sumOver (fun i => (ls (c.idx + i)).minimum) c.span))
            ((distCount
              (decide (sumOver (fun i => if (ls (c.idx + i)).expand then (1 : Int) else 0)
                c.span = 0)) ls c.idx c.span 0 : Nat) : Int) ls (c.idx + 0 + t)).minimum)
            c.span := by
        apply sumOver_congr
        intro i _
        rw [show c.idx + 0 + i = c.idx + i from by omega]
      have hidx2 : sumOver (fun t => (ls (c.idx + 0 + t)).minimum) c.span =
          sumOver (fun i => (ls (c.idx + i)).minimum) c.span := by
        apply sumOver_congr
        intro i _
        rw [show c.idx + 0 + i = c.idx + i from by omega]
      rw [hidx1, hsum, hidx2]
      linarith
  · rw [sumOver_congr c.span (fun i _ => by rw [if_neg hlt])]
    exact not_lt.mp hlt

/-- The spanning pass never decreases a line minimum. -/
theorem spanning_fold_min_mono (e : RequestEnv) :
    ∀ (l : List OrientedChild) (ls : Nat → GtkGridLine) (x : Nat),
      (ls x).minimum ≤ ((l.foldl (gtk_grid_request_spanning_child e) ls) x).minimum := by
  intro l
  induction l with
  | nil => intro ls x; exact le_refl _
  | cons a t ih =>
    intro ls x
    exact le_trans (spanning_child_min_mono e a ls x) (ih _ x)

/-- After the spanning pass, every visible spanning child's spanned minimum
total covers its own minimum. -/
theorem spanning_fold_estab (e : RequestEnv) :
    ∀ (l : List OrientedChild) (ls : Nat → GtkGridLine) (c : OrientedChild),
      c ∈ l → c.visible = true → 2 ≤ c.span →
      c.minimum ≤ ((c.span : Int) - 1) * e.spacing +
        sumOver
          (fun i => ((l.foldl (gtk_grid_request_spanning_child e) ls) (c.idx + i)).minimum)
          c.span := by
  intro l
  induction l with
  | nil => intro ls c hc; simp at hc
  | cons a t ih =>
    intro ls c hc hv hs
    simp only [List.foldl_cons]
    rcases List.mem_cons.mp hc with rfl | hct
    · have h1 := spanning_child_estab e c ls hv hs
      have h2 : sumOver
          (fun i => ((gtk_grid_request_spanning_child e ls c) (c.idx + i)).minimum)
            c.span ≤
          sumOver
            (fun i => ((t.foldl (gtk_grid_request_spanning_child e)
              (gtk_grid_request_spanning_child e ls c)) (c.idx + i)).minimum) c.span := by
        apply sumOver_le_sumOver
        intro i _
        exact spanning_fold_min_mono e t _ _
      linarith
    · exact ih _ c hct hv hs

/-- After the full request solve, every visible spanning child's spanned
minimum total covers its own minimum (Stage A of the C4 argument). -/
theorem run_spanning_min (e : RequestEnv) (c : OrientedChild) (hc : c ∈ e.children)
    (hv : c.visible = true) (hs : 2 ≤ c.span) (hin : c.idx + c.span ≤ e.n) :
    c.minimum ≤ ((c.span : Int) - 1) * e.spacing +
      sumOver (fun i => ((gtk_grid_request_run e) (c.idx + i)).minimum) c.span := by
  unfold gtk_grid_request_run gtk_grid_request_spanning
  have hA := spanning_fold_estab e e.children
    (gtk_grid_request_homogeneous e
      (gtk_grid_request_non_spanning e (gtk_grid_request_init e))) c hc hv hs
  by_cases hh : e.homogeneous = true
  · have hstep : ∀ i, i < c.span →
        ((e.children.foldl (gtk_grid_request_spanning_child e)
          (gtk_grid_request_homogeneous e
            (gtk_grid_request_non_spanning e (gtk_grid_request_init e)))) (c.idx + i)).minimum ≤
        ((gtk_grid_request_homogeneous e
          (e.children.foldl (gtk_grid_request_spanning_child e)
            (gtk_grid_request_homogeneous e
              (gtk_grid_request_non_spanning e (gtk_grid_request_init e))))) (c.idx + i)).minimum := by
      intro i hi
      rw [(homogeneous_clamp_spec e hh _ (c.idx + i) (by omega)).1]
      exact le_maxOver _ e.n (c.idx + i) (by omega)
    have h2 := sumOver_le_sumOver c.span hstep
    linarith
  · have hid : gtk_grid_request_homogeneous e
        (e.children.foldl (gtk_grid_request_spanning_child e)
          (gtk_grid_request_homogeneous e
            (gtk_grid_request_non_spanning e (gtk_grid_request_init e)))) =
        e.children.foldl (gtk_grid_request_spanning_child e)
          (gtk_grid_request_homogeneous e
            (gtk_grid_request_non_spanning e (gtk_grid_request_init e))) := by
      unfold gtk_grid_request_homogeneous
      rw [if_pos (by simp [hh])]
    rw [hid]
    exact hA

/-- Pointwise field preservation through a fold whose steps preserve it. -/
theorem foldl_line_pres {α β : Type} (P : GtkGridLine → α)
    (step : (Nat → GtkGridLine) → β → Nat → GtkGridLine)
    (h : ∀ ls b x, P ((step ls b) x) = P (ls x)) :
    ∀ (l : List β) (ls : Nat → GtkGridLine) (x : Nat),
      P ((l.foldl step ls) x) = P (ls x) := by
  intro l
  induction l with
  | nil => intro ls x; rfl
  | cons b t ih =>
    intro ls x
    rw [List.foldl_cons, ih, h]

/-- Pointwise field preservation through `setLine`. -/
theorem setLine_pres {α : Type} (P : GtkGridLine → α) (f : GtkGridLine → GtkGridLine)
    (hf : ∀ l, P (f l) = P l) (ls : Nat → GtkGridLine) (i x : Nat) :
    P ((setLine ls i f) x) = P (ls x) := by
  unfold setLine
  split
  · rw [hf]
  · rfl

/-- Record updates of the flag fields keep the minimum. -/
theorem expand_update_minimum (l : GtkGridLine) :
    ({ l with expand := true } : GtkGridLine).minimum = l.minimum := rfl

/-- gtk_grid_request_compute_expand only rewrites flags: it never changes a
line's minimum. -/
theorem ce_lines_minimum (e : RequestEnv) (lo hi : Int) (ls0 : Nat → GtkGridLine)
    (x : Nat) :
    (((gtk_grid_request_compute_expand e lo hi ls0).lines) x).minimum =
      (ls0 x).minimum := by
  simp only [gtk_grid_request_compute_expand]
  have h2 : ∀ (ls : Nat → GtkGridLine) (c : OrientedChild) (y : Nat),
      (((fun (ls : Nat → GtkGridLine) (c : OrientedChild) =>
        if !c.visible then ls
        else if c.span ≠ 1 then ls
        else if (c.idx : Int) ≥ min hi (e.n : Int) ∨ (c.idx : Int) < max lo 0 then ls
        else
          setLine ls c.idx (fun l =>
            if c.computeExpand then { l with empty := false, expand := true }
            else { l with empty := false })) ls c) y).minimum = (ls y).minimum := by
    intro ls c y
    simp only []
    split
    · rfl
    split
    · rfl
    split
    · rfl
    exact setLine_pres (fun l => l.minimum) _ (fun l => by split <;> rfl) ls c.idx y
  have h3 : ∀ (ls : Nat → GtkGridLine) (c : OrientedChild) (y : Nat),
      (((fun (ls : Nat → GtkGridLine) (c : OrientedChild) =>
        if !c.visible then ls
        else if c.span = 1 then ls
        else
          let has_expand := (List.range c.span).any (fun i => (ls (c.idx + i)).expand)
          let ls' := (List.range c.span).foldl
            (fun ls2 (i : Nat) =>
              if ((c.idx + i : Nat) : Int) ≥ min hi (e.n : Int) ∨
                  (c.idx : Int) + 1 < max lo 0 then ls2
              else setLine ls2 (c.idx + i) (fun l => { l with empty := false }))
            ls
          if !has_expand && c.computeExpand then
            (List.range c.span).foldl
              (fun ls2 (i : Nat) =>
                if ((c.idx + i : Nat) : Int) ≥ min hi (e.n : Int) ∨
                    (c.idx : Int) + 1 < max lo 0 then ls2
                else setLine ls2 (c.idx + i) (fun l => { l with need_expand := true }))
              ls'
          else ls') ls c) y).minimum = (ls y).minimum := by
    intro ls c y
    simp only []
    split
    · rfl
    split
    · rfl
    split
    · rw [foldl_line_pres (fun l => l.minimum) _ ?hn, foldl_line_pres (fun l => l.minimum) _ ?hm]
      case hn =>
        intro ls2 i z
        split
        · rfl
        exact setLine_pres (fun l => l.minimum)
          (fun l => { l with need_expand := true }) (fun l => rfl) ls2 (c.idx + i) z
      case hm =>
        intro ls2 i z
        split
        · rfl
        exact setLine_pres (fun l => l.minimum)
          (fun l => { l with empty := false }) (fun l => rfl) ls2 (c.idx + i) z
    · rw [foldl_line_pres (fun l => l.minimum) _ ?hm2]
      case hm2 =>
        intro ls2 i z
        split
        · rfl
        exact setLine_pres (fun l => l.minimum)
          (fun l => { l with empty := false }) (fun l => rfl) ls2 (c.idx + i) z
  split
  · rw [expand_update_minimum, foldl_line_pres (fun l => l.minimum) _ h3,
      foldl_line_pres (fun l => l.minimum) _ h2]
    split <;> rfl
  · rw [foldl_line_pres (fun l => l.minimum) _ h3,
      foldl_line_pres (fun l => l.minimum) _ h2]
    split <;> rfl

/-- A fold whose steps keep non-empty lines non-empty keeps them non-empty. -/
theorem foldl_empty_false_mono {β : Type}
    (step : (Nat → GtkGridLine) → β → Nat → GtkGridLine)
    (h : ∀ ls b x, (ls x).empty = false → ((step ls b) x).empty = false) :
    ∀ (l : List β) (ls : Nat → GtkGridLine) (x : Nat),
      (ls x).empty = false → ((l.foldl step ls) x).empty = false := by
  intro l
  induction l with
  | nil => intro ls x hx; exact hx
  | cons b t ih =>
    intro ls x hx
    rw [List.foldl_cons]
    exact ih _ x (h ls b x hx)

/-- The inner marking loop of the spanning branch of compute_expand marks
every in-window spanned line non-empty. -/
theorem mark_fold_empty (cidx : Nat) (lo hi : Int) :
    ∀ (l : List Nat) (ls : Nat → GtkGridLine) (t : Nat), t ∈ l →
      ¬(((cidx + t : Nat) : Int) ≥ hi ∨ (cidx : Int) + 1 < lo) →
      ((l.foldl (fun ls2 (i : Nat) =>
          if ((cidx + i : Nat) : Int) ≥ hi ∨ (cidx : Int) + 1 < lo then ls2
          else setLine ls2 (cidx + i) (fun l => { l with empty := false })) ls)
        (cidx + t)).empty = false := by
  have hmono : ∀ (ls2 : Nat → GtkGridLine) (i : Nat) (x : Nat),
      (ls2 x).empty = false →
      (((fun ls2 (i : Nat) =>
          if ((cidx + i : Nat) : Int) ≥ hi ∨ (cidx : Int) + 1 < lo then ls2
          else setLine ls2 (cidx + i) (fun l => { l with empty := false })) ls2 i)
        x).empty = false := by
    intro ls2 i x hx
    simp only []
    split
    · exact hx
    by_cases hxi : x = cidx + i
    · subst hxi
      rw [setLine_same]
    · rw [setLine_other _ _ _ x hxi]
      exact hx
  intro l
  induction l with
  | nil => intro ls t ht _; simp at ht
  | cons a l' ih =>
    intro ls t ht hg
    rw [List.foldl_cons]
    by_cases hat : a = t
    · subst hat
      apply foldl_empty_false_mono _ hmono
      show ((if ((cidx + a : Nat) : Int) ≥ hi ∨ (cidx : Int) + 1 < lo then ls
        else setLine ls (cidx + a) (fun l => { l with empty := false }))
          (cidx + a)).empty = false
      rw [if_neg hg, setLine_same]
    · rcases List.mem_cons.mp ht with h | h
      · exact absurd h.symm hat
      · exact ih _ t h hg

/-- Record updates of the expand flag keep the empty flag. -/
theorem expand_update_empty (l : GtkGridLine) :
    ({ l with expand := true } : GtkGridLine).empty = l.empty := rfl

/-- The spanning step of compute_expand keeps non-empty lines non-empty. -/
theorem step3_empty_mono (W1 W2 : Int) :
    ∀ (ls : Nat → GtkGridLine) (c : OrientedChild) (x : Nat),
      (ls x).empty = false →
      (((fun (ls : Nat → GtkGridLine) (c : OrientedChild) =>
        if !c.visible then ls
        else if c.span = 1 then ls
        else
          let has_expand := (List.range c.span).any (fun i => (ls (c.idx + i)).expand)
          let ls' := (List.range c.span).foldl
            (fun ls2 (i : Nat) =>
              if ((c.idx + i : Nat) : Int) ≥ W1 ∨ (c.idx : Int) + 1 < W2 then ls2
              else setLine ls2 (c.idx + i) (fun l => { l with empty := false })) ls
          if !has_expand && c.computeExpand then
            (List.range c.span).foldl
              (fun ls2 (i : Nat) =>
                if ((c.idx + i : Nat) : Int) ≥ W1 ∨ (c.idx : Int) + 1 < W2 then ls2
                else setLine ls2 (c.idx + i) (fun l => { l with need_expand := true }))
              ls'
          else ls') ls c) x).empty = false := by
  intro ls c x hx
  have hmark : ∀ (ls2 : Nat → GtkGridLine) (i : Nat) (z : Nat),
      (ls2 z).empty = false →
      (((fun ls2 (i : Nat) =>
        if ((c.idx + i : Nat) : Int) ≥ W1 ∨ (c.idx : Int) + 1 < W2 then ls2
        else setLine ls2 (c.idx + i) (fun l => { l with empty := false })) ls2 i)
          z).empty = false := by
    intro ls2 i z hz
    simp only []
    split
    · exact hz
    by_cases hzi : z = c.idx + i
    · subst hzi
      rw [setLine_same]
    · rw [setLine_other _ _ _ z hzi]
      exact hz
  have hneed : ∀ (ls2 : Nat → GtkGridLine) (i : Nat) (z : Nat),
      (ls2 z).empty = false →
      (((fun ls2 (i : Nat) =>
        if ((c.idx + i : Nat) : Int) ≥ W1 ∨ (c.idx : Int) + 1 < W2 then ls2
        else setLine ls2 (c.idx + i) (fun l => { l with need_expand := true })) ls2 i)
          z).empty = false := by
    intro ls2 i z hz
    simp only []
    split
    · exact hz
    by_cases hzi : z = c.idx + i
    · subst hzi
      rw [setLine_same]
      exact hz
    · rw [setLine_other _ _ _ z hzi]
      exact hz
  simp only []
  split
  · exact hx
  split
  · exact hx
  split
  · exact foldl_empty_false_mono _ hneed _ _ _
      (foldl_empty_false_mono _ hmark _ _ _ hx)
  · exact foldl_empty_false_mono _ hmark _ _ _ hx

/-- Processing a visible spanning child in compute_expand marks its in-window
spanned lines non-empty. -/
theorem step3_estab (W1 W2 : Int) (ls : Nat → GtkGridLine) (c : OrientedChild)
    (hv : c.visible = true) (hsp : ¬c.span = 1) (t : Nat) (ht : t < c.span)
    (hg : ¬(((c.idx + t : Nat) : Int) ≥ W1 ∨ (c.idx : Int) + 1 < W2)) :
    (((fun (ls : Nat → GtkGridLine) (c : OrientedChild) =>
      if !c.visible then ls
      else if c.span = 1 then ls
      else
        let has_expand := (List.range c.span).any (fun i => (ls (c.idx + i)).expand)
        let ls' := (List.range c.span).foldl
          (fun ls2 (i : Nat) =>
            if ((c.idx + i : Nat) : Int) ≥ W1 ∨ (c.idx : Int) + 1 < W2 then ls2
            else setLine ls2 (c.idx + i) (fun l => { l with empty := false })) ls
        if !has_expand && c.computeExpand then
          (List.range c.span).foldl
            (fun ls2 (i : Nat) =>
              if ((c.idx + i : Nat) : Int) ≥ W1 ∨ (c.idx : Int) + 1 < W2 then ls2
              else setLine ls2 (c.idx + i) (fun l => { l with need_expand := true }))
            ls'
        else ls') ls c) (c.idx + t)).empty = false := by
  have hneed : ∀ (ls2 : Nat → GtkGridLine) (i : Nat) (z : Nat),
      (ls2 z).empty = false →
      (((fun ls2 (i : Nat) =>
        if ((c.idx + i : Nat) : Int) ≥ W1 ∨ (c.idx : Int) + 1 < W2 then ls2
        else setLine ls2 (c.idx + i) (fun l => { l with need_expand := true })) ls2 i)
          z).empty = false := by
    intro ls2 i z hz
    simp only []
    split
    · exact hz
    by_cases hzi : z = c.idx + i
    · subst hzi
      rw [setLine_same]
      exact hz
    · rw [setLine_other _ _ _ z hzi]
      exact hz
  simp only []
  rw [if_neg (by simp [hv]), if_neg hsp]
  split
  · exact foldl_empty_false_mono _ hneed _ _ _
      (mark_fold_empty c.idx W2 W1 (List.range c.span) ls t (List.mem_range.mpr ht) hg)
  · exact mark_fold_empty c.idx W2 W1 (List.range c.span) ls t (List.mem_range.mpr ht) hg

/-- Through the whole spanning fold of compute_expand, a visible spanning
child's in-window spanned lines end up non-empty. -/
theorem fold3_spanned_empty (W1 W2 : Int) :
    ∀ (l : List OrientedChild) (ls : Nat → GtkGridLine) (c : OrientedChild),
      c ∈ l → c.visible = true → ¬c.span = 1 → ∀ t, t < c.span →
      ¬(((c.idx + t : Nat) : Int) ≥ W1 ∨ (c.idx : Int) + 1 < W2) →
      ((l.foldl (fun (ls : Nat → GtkGridLine) (c : OrientedChild) =>
        if !c.visible then ls
        else if c.span = 1 then ls
        else
          let has_expand := (List.range c.span).any (fun i => (ls (c.idx + i)).expand)
          let ls' := (List.range c.span).foldl
            (fun ls2 (i : Nat) =>
              if ((c.idx + i : Nat) : Int) ≥ W1 ∨ (c.idx : Int) + 1 < W2 then ls2
              else setLine ls2 (c.idx + i) (fun l => { l with empty := false })) ls
          if !has_expand && c.computeExpand then
            (List.range c.span).foldl
              (fun ls2 (i : Nat) =>
                if ((c.idx + i : Nat) : Int) ≥ W1 ∨ (c.idx : Int) + 1 < W2 then ls2
                else setLine ls2 (c.idx + i) (fun l => { l with need_expand := true }))
              ls'
          else ls') ls) (c.idx + t)).empty = false := by
  intro l
  induction l with
  | nil => intro ls c hc; simp at hc
  | cons a l' ih =>
    intro ls c hc hv hsp t ht hg
    rw [List.foldl_cons]
    rcases List.mem_cons.mp hc with rfl | h
    · exact foldl_empty_false_mono _ (step3_empty_mono W1 W2) l' _ _
        (step3_estab W1 W2 ls c hv hsp t ht hg)
    · exact ih _ c h hv hsp t ht hg

/-- In a full-window compute_expand pass, every line spanned by a visible
in-range spanning child comes out non-empty. -/
theorem ce_spanned_empty_false (e : RequestEnv) (ls0 : Nat → GtkGridLine)
    (c : OrientedChild) (hc : c ∈ e.children) (hv : c.visible = true)
    (hs : 2 ≤ c.span) (hin : c.idx + c.span ≤ e.n) (t : Nat) (ht : t < c.span) :
    (((gtk_grid_request_compute_expand e 0 (e.n : Int) ls0).lines) (c.idx + t)).empty =
      false := by
  have hg : ¬(((c.idx + t : Nat) : Int) ≥ min ((e.n : Int)) ((e.n : Int)) ∨
      (c.idx : Int) + 1 < max (0 : Int) 0) := by
    rw [min_self, max_self]
    push_neg
    constructor
    · push_cast
      omega
    · omega
  simp only [gtk_grid_request_compute_expand]
  split
  · rw [expand_update_empty]
    exact fold3_spanned_empty (min ((e.n : Int)) ((e.n : Int))) (max (0 : Int) 0)
      e.children _ c hc hv (by omega) t ht hg
  · exact fold3_spanned_empty (min ((e.n : Int)) ((e.n : Int))) (max (0 : Int) 0)
      e.children _ c hc hv (by omega) t ht hg

/-- Counting a predicate and its complement covers a list. -/
theorem countP_not_add {α : Type} (p : α → Bool) :
    ∀ l : List α, l.countP (fun a => !(p a)) + l.countP p = l.length := by
  intro l
  induction l with
  | nil => rfl
  | cons b t ih =>
    rw [List.countP_cons, List.countP_cons, List.length_cons]
    cases hb : p b <;> simp [hb] <;> omega

/-- A member refuting the predicate makes the count strictly smaller than the
length. -/
theorem countP_lt_of_mem_false {α : Type} (p : α → Bool) :
    ∀ (l : List α) (a : α), a ∈ l → p a = false → l.countP p < l.length := by
  intro l
  induction l with
  | nil => intro a ha; simp at ha
  | cons b t ih =>
    intro a ha hpa
    rw [List.countP_cons, List.length_cons]
    have hle := List.countP_le_length (l := t) p
    rcases List.mem_cons.mp ha with rfl | h
    · rw [hpa]
      norm_num
      omega
    · have := ih a h hpa
      by_cases hpb : p b = true
      · rw [hpb]
        norm_num
        omega
      · rw [Bool.not_eq_true] at hpb
        rw [hpb]
        norm_num
        omega

/-- The full-window nonempty-line count of compute_expand as a range count. -/
theorem ce_nonempty_lines_eq (e : RequestEnv) (ls0 : Nat → GtkGridLine) :
    (gtk_grid_request_compute_expand e 0 (e.n : Int) ls0).nonempty_lines =
      (e.n : Int) -
        (((List.range e.n).countP
          (fun i => ((gtk_grid_request_compute_expand e 0 (e.n : Int) ls0).lines i).empty) :
            Nat) : Int) := by
  simp only [gtk_grid_request_compute_expand]
  rw [List.range_eq_range']
  simp only [min_self, max_self, Int.toNat_zero, sub_zero, Int.toNat_natCast]

/-- The nonempty-line count equals the count of non-empty window lines. -/
theorem ce_nonempty_count (e : RequestEnv) (ls0 : Nat → GtkGridLine) :
    (gtk_grid_request_compute_expand e 0 (e.n : Int) ls0).nonempty_lines =
      (((List.range e.n).countP
        (fun i => !((gtk_grid_request_compute_expand e 0 (e.n : Int) ls0).lines i).empty) :
          Nat) : Int) := by
  have h := countP_not_add
    (fun i => ((gtk_grid_request_compute_expand e 0 (e.n : Int) ls0).lines i).empty)
    (List.range e.n)
  rw [List.length_range] at h
  rw [ce_nonempty_lines_eq]
  omega

/-- With a visible in-range spanning child present, the full window has a
non-empty line. -/
theorem ce_nonempty_pos (e : RequestEnv) (ls0 : Nat → GtkGridLine)
    (c : OrientedChild) (hc : c ∈ e.children) (hv : c.visible = true)
    (hs : 2 ≤ c.span) (hin : c.idx + c.span ≤ e.n) :
    1 ≤ (gtk_grid_request_compute_expand e 0 (e.n : Int) ls0).nonempty_lines := by
  have hemp := ce_spanned_empty_false e ls0 c hc hv hs hin 0 (by omega)
  rw [Nat.add_zero] at hemp
  have hlt := countP_lt_of_mem_false
    (fun i => ((gtk_grid_request_compute_expand e 0 (e.n : Int) ls0).lines i).empty)
    (List.range e.n) c.idx (List.mem_range.mpr (by omega)) hemp
  rw [List.length_range] at hlt
  rw [ce_nonempty_lines_eq]
  omega

/-- Sums distribute over pointwise addition. -/
theorem sumOver_add (f g : Nat → Int) :
    ∀ n, sumOver (fun i => f i + g i) n = sumOver f n + sumOver g n := by
  intro n
  induction n with
  | zero => rfl
  | succ m ih =>
    rw [sumOver_succ, sumOver_succ, sumOver_succ, ih]
    ring

/-- A conditional constant sums to the count of satisfied indices. -/
theorem sumOver_ite_count (p : Nat → Bool) (c : Int) :
    ∀ n, sumOver (fun i => if p i then c else 0) n =
      (((List.range n).countP p : Nat) : Int) * c := by
  intro n
  induction n with
  | zero => simp [sumOver]
  | succ m ih =>
    rw [sumOver_succ, ih, List.range_succ, List.countP_append]
    by_cases hp : p m = true
    · rw [if_pos hp]
      simp only [List.countP_cons, List.countP_nil, hp]
      push_cast
      ring
    · rw [Bool.not_eq_true] at hp
      rw [if_neg (by simp [hp])]
      simp only [List.countP_cons, List.countP_nil, hp]
      push_cast
      ring

/-- First component of the request_sum accumulation loop. -/
theorem sum_fold_fst (e : RequestEnv) (L : Nat → GtkGridLine) :
    ∀ (n : Nat) (st : Int × Int × Int × Int),
      (((List.range n).foldl
        (fun st (i : Nat) =>
          let (mn, nt, mb, nb) := st
          let (mb, nb) :=
            if e.vertical ∧ e.linesMin + (i : Int) = e.baseline_row ∧
                (L i).minimum_above ≠ -1 then
              (mn + (L i).minimum_above, nt + (L i).natural_above)
            else (mb, nb)
          let mn := mn + (L i).minimum + (if !(L i).empty then e.spacing else 0)
          let nt := nt + (L i).natural + (if !(L i).empty then e.spacing else 0)
          (mn, nt, mb, nb)) st)).1 =
      st.1 + sumOver (fun i => (L i).minimum + (if !(L i).empty then e.spacing else 0)) n := by
  intro n
  induction n with
  | zero => intro st; simp [sumOver]
  | succ m ih =>
    intro st
    rw [List.range_succ, List.foldl_append, List.foldl_cons, List.foldl_nil]
    have hstep : ∀ (st2 : Int × Int × Int × Int) (i : Nat),
        (((fun st (i : Nat) =>
          let (mn, nt, mb, nb) := st
          let (mb, nb) :=
            if e.vertical ∧ e.linesMin + (i : Int) = e.baseline_row ∧
                (L i).minimum_above ≠ -1 then
              (mn + (L i).minimum_above, nt + (L i).natural_above)
            else (mb, nb)
          let mn := mn + (L i).minimum + (if !(L i).empty then e.spacing else 0)
          let nt := nt + (L i).natural + (if !(L i).empty then e.spacing else 0)
          (mn, nt, mb, nb)) st2 i)).1 =
        st2.1 + ((L i).minimum + (if !(L i).empty then e.spacing else 0)) := by
      intro st2 i
      obtain ⟨mn, nt, mb, nb⟩ := st2
      simp only []
      ring
    rw [hstep, ih, sumOver_succ]
    ring

/-- With the line count in `gint` range, the sentinel window of request_sum
clamps to the full `[0, n)` window. -/
theorem ce_sentinel (e : RequestEnv) (ls0 : Nat → GtkGridLine)
    (hn : (e.n : Int) ≤ G_MAXINT) :
    gtk_grid_request_compute_expand e G_MININT G_MAXINT ls0 =
      gtk_grid_request_compute_expand e 0 (e.n : Int) ls0 := by
  have h1 : max G_MININT 0 = max (0 : Int) 0 := by
    rw [max_self]
    exact max_eq_right (by norm_num [G_MININT])
  have h2 : min G_MAXINT (e.n : Int) = min ((e.n : Int)) ((e.n : Int)) := by
    rw [min_self]
    exact min_eq_right hn
  simp only [gtk_grid_request_compute_expand]
  rw [h1, h2]

/-- The grid's reported minimum is the per-line minimum total plus one spacing
per non-empty line, less one trailing spacing when any line is non-empty. -/
theorem request_sum_fst (e : RequestEnv) (ls0 : Nat → GtkGridLine)
    (hn : (e.n : Int) ≤ G_MAXINT) :
    (gtk_grid_request_sum e ls0).1 =
      sumOver (fun i =>
        ((gtk_grid_request_compute_expand e 0 (e.n : Int) ls0).lines i).minimum +
          (if !((gtk_grid_request_compute_expand e 0 (e.n : Int) ls0).lines i).empty
           then e.spacing else 0)) e.n -
      (if 0 < (gtk_grid_request_compute_expand e 0 (e.n : Int) ls0).nonempty_lines
       then e.spacing else 0) := by
  simp only [gtk_grid_request_sum]
  rw [ce_sentinel e ls0 hn]
  have hfst := sum_fold_fst e
    (gtk_grid_request_compute_expand e 0 (e.n : Int) ls0).lines e.n
    ((0 : Int), (0 : Int), (-1 : Int), (-1 : Int))
  generalize hst : (List.range e.n).foldl
      (fun st (i : Nat) =>
        let (mn, nt, mb, nb) := st
        let (mb, nb) :=
          if e.vertical ∧ e.linesMin + (i : Int) = e.baseline_row ∧
              ((gtk_grid_request_compute_expand e 0 (e.n : Int) ls0).lines i).minimum_above ≠ -1 then
            (mn + ((gtk_grid_request_compute_expand e 0 (e.n : Int) ls0).lines i).minimum_above,
             nt + ((gtk_grid_request_compute_expand e 0 (e.n : Int) ls0).lines i).natural_above)
          else (mb, nb)
        let mn := mn +
          ((gtk_grid_request_compute_expand e 0 (e.n : Int) ls0).lines i).minimum +
          (if !((gtk_grid_request_compute_expand e 0 (e.n : Int) ls0).lines i).empty
           then e.spacing else 0)
        let nt := nt +
          ((gtk_grid_request_compute_expand e 0 (e.n : Int) ls0).lines i).natural +
          (if !((gtk_grid_request_compute_expand e 0 (e.n : Int) ls0).lines i).empty
           then e.spacing else 0)
        (mn, nt, mb, nb))
      ((0 : Int), (0 : Int), (-1 : Int), (-1 : Int)) = st
  rw [hst] at hfst
  obtain ⟨mn, nt, mb, nb⟩ := st
  simp only [] at hfst ⊢
  by_cases hne : 0 < (gtk_grid_request_compute_expand e 0 (e.n : Int) ls0).nonempty_lines
  · rw [if_pos hne, if_pos hne]
    omega
  · rw [if_neg hne, if_neg hne]
    omega

/-- The homogeneous assignment loop leaves unlisted indices alone. -/
theorem homogeneousAssign_frame (extra : Int) :
    ∀ (is : List Nat) (rest : Int) (ls : Nat → GtkGridLine) (x : Nat), x ∉ is →
      homogeneousAssign extra is rest ls x = ls x := by
  intro is
  induction is with
  | nil => intro rest ls x _; rfl
  | cons i t ih =>
    intro rest ls x hx
    have hxi : x ≠ i := fun h => hx (by simp [h])
    have hxt : x ∉ t := fun h => hx (by simp [h])
    simp only [homogeneousAssign]
    split
    · exact ih rest ls x hxt
    · rw [ih _ _ x hxt, setLine_other _ _ _ x hxi]

/-- Every listed non-empty line receives at least `extra` from the
homogeneous assignment loop. -/
theorem homogeneousAssign_ge (extra : Int) :
    ∀ (is : List Nat) (rest : Int) (ls : Nat → GtkGridLine) (x : Nat),
      x ∈ is → (ls x).empty = false →
      extra ≤ (homogeneousAssign extra is rest ls x).allocation := by
  intro is
  induction is with
  | nil => intro rest ls x hx; simp at hx
  | cons i t ih =>
    intro rest ls x hx hne
    simp only [homogeneousAssign]
    by_cases hxi : x = i
    · subst hxi
      rw [if_neg (by rw [hne]; simp)]
      by_cases hxt : x ∈ t
      · apply ih _ _ x hxt
        rw [setLine_same]
        exact hne
      · rw [homogeneousAssign_frame _ _ _ _ x hxt, setLine_same]
        have : (0 : Int) ≤ (if rest > 0 then (1 : Int) else 0) := by split <;> omega
        simp only []
        omega
    · have hxt : x ∈ t := by
        rcases List.mem_cons.mp hx with h | h
        · exact absurd h hxi
        · exact h
      split
      · exact ih _ _ x hxt hne
      · apply ih _ _ x hxt
        rw [setLine_other _ _ _ x hxi]
        exact hne

/-- Deriving allocated baselines never changes an allocation. -/
theorem allocateBaselines_alloc (e : RequestEnv) (ls : Nat → GtkGridLine)
    (i : Nat) :
    ((allocateBaselines e ls) i).allocation = (ls i).allocation := by
  unfold allocateBaselines
  split
  · rcases e.bp (e.linesMin + (i : Int)) with _ | _ | _ <;>
      (simp only []; split <;> rfl)
  · rfl

/-- An empty window is not distributed. -/
theorem distribute_zero (ls : Nat → GtkGridLine) (expand size lo hi : Int) :
    gtk_grid_distribute_non_homogeneous ls 0 expand size lo hi = ls := by
  unfold gtk_grid_distribute_non_homogeneous
  rw [if_pos rfl]

/-- Setting the allocation field reads back. -/
theorem alloc_update (l : GtkGridLine) (v : Int) :
    ({ l with allocation := v } : GtkGridLine).allocation = v := rfl

/-- Every listed line's final allocation dominates its grown size when the
expanding shares are nonnegative. -/
theorem distributeAssign_alloc_ge (extra : Int) (js : List Nat) (hjs : js.Nodup)
    (gs : List Int) (rest : Int) (ls : Nat → GtkGridLine)
    (hlen : gs.length = js.length) (hrest : 0 ≤ rest) (hextra : 0 ≤ extra)
    (k : Nat) (hk : k < js.length) :
    gs.getD k 0 ≤ (distributeAssign extra js gs rest ls (js.getD k 0)).allocation := by
  rw [distributeAssign_spec extra js hjs gs rest ls hlen hrest k hk]
  split
  · rw [alloc_update]
    have : (0 : Int) ≤
        if (((js.take k).countP (fun j => (ls j).expand)) : Int) < rest then 1 else 0 := by
      split <;> omega
    omega
  · rw [alloc_update]

/-- `getD` after `map` at an in-range index. -/
theorem getD_map_pair {α : Type} (f : Nat → α) (l : List Nat) (k : Nat) (d : α)
    (hk : k < l.length) : (l.map f).getD k d = f (l.getD k 0) := by
  rw [List.getD_eq_getElem _ _ (by simpa using hk), List.getD_eq_getElem _ _ hk,
    List.getElem_map]

/-- In a non-homogeneous distribution over the full window, every non-empty
line's allocation covers its minimum. -/
theorem distribute_alloc_ge (ls : Nat → GtkGridLine) (nonempty expand size : Int)
    (n : Nat) (j : Nat) (hj : j < n) (hne : (ls j).empty = false)
    (hnz : ¬nonempty = 0) :
    (ls j).minimum ≤
      ((gtk_grid_distribute_non_homogeneous ls nonempty expand size 0 (n : Int)) j).allocation := by
  unfold gtk_grid_distribute_non_homogeneous
  rw [if_neg hnz]
  simp only [Int.toNat_zero, sub_zero, Int.toNat_natCast]
  have hmem : j ∈ (List.range' 0 n).filter (fun i => !(ls i).empty) :=
    List.mem_filter.mpr ⟨List.mem_range'_1.mpr ⟨by omega, by omega⟩, by simp [hne]⟩
  obtain ⟨k, hk, hkj⟩ := List.getElem_of_mem hmem
  have hgd : ((List.range' 0 n).filter (fun i => !(ls i).empty)).getD k 0 = j := by
    rw [List.getD_eq_getElem _ _ hk]
    exact hkj
  have hnodup : ((List.range' 0 n).filter (fun i => !(ls i).empty)).Nodup :=
    (List.nodup_range' 0 n 1 (by omega)).filter _
  have hlen : (gtk_distribute_natural_allocation
      (max 0 (size - (((List.range' 0 n).filter (fun i => !(ls i).empty)).map
        (fun i => (ls i).minimum)).sum))
      (((List.range' 0 n).filter (fun i => !(ls i).empty)).map
        (fun i => ((ls i).minimum, (ls i).natural)))).2.length =
      ((List.range' 0 n).filter (fun i => !(ls i).empty)).length := by
    rw [dna_length, List.length_map]
  have hl0 : (0 : Int) ≤ (gtk_distribute_natural_allocation
      (max 0 (size - (((List.range' 0 n).filter (fun i => !(ls i).empty)).map
        (fun i => (ls i).minimum)).sum))
      (((List.range' 0 n).filter (fun i => !(ls i).empty)).map
        (fun i => ((ls i).minimum, (ls i).natural)))).1 :=
    dna_leftover_nonneg _ _ (le_max_left 0 _)
  have hrest : (0 : Int) ≤ (if expand > 0 then
      (gtk_distribute_natural_allocation
        (max 0 (size - (((List.range' 0 n).filter (fun i => !(ls i).empty)).map
          (fun i => (ls i).minimum)).sum))
        (((List.range' 0 n).filter (fun i => !(ls i).empty)).map
          (fun i => ((ls i).minimum, (ls i).natural)))).1.tmod expand
      else 0) := by
    split
    · exact Int.tmod_nonneg expand hl0
    · exact le_refl 0
  have hextra : (0 : Int) ≤ (if expand > 0 then
      (gtk_distribute_natural_allocation
        (max 0 (size - (((List.range' 0 n).filter (fun i => !(ls i).empty)).map
          (fun i => (ls i).minimum)).sum))
        (((List.range' 0 n).filter (fun i => !(ls i).empty)).map
          (fun i => ((ls i).minimum, (ls i).natural)))).1.tdiv expand
      else 0) := by
    split
    · exact Int.tdiv_nonneg hl0 (by omega)
    · exact le_refl 0
  have hgrown := dna_grown_ge
    (((List.range' 0 n).filter (fun i => !(ls i).empty)).map
      (fun i => ((ls i).minimum, (ls i).natural)))
    (max 0 (size - (((List.range' 0 n).filter (fun i => !(ls i).empty)).map
      (fun i => (ls i).minimum)).sum))
    (le_max_left 0 _) k (by rw [List.length_map]; exact hk)
  rw [getD_map_pair _ _ _ _ hk, hgd] at hgrown
  have hmain := distributeAssign_alloc_ge _ _ hnodup _ _ ls hlen hrest hextra k hk
  rw [hgd] at hmain
  exact le_trans hgrown hmain

/-- With no ambient baseline and a non-empty window, the allocate pass is the
single-window distribution followed by baseline derivation. -/

theorem allocate_no_baseline (e : RequestEnv) (total : Int) (ls0 : Nat → GtkGridLine)
    (hne : 0 < (gtk_grid_request_compute_expand e 0 (e.n : Int) ls0).nonempty_lines) :
    gtk_grid_request_allocate e (-1) total ls0 =
      allocateBaselines e
        (if e.homogeneous then
          homogeneousAssign
            ((total - ((gtk_grid_request_compute_expand e 0 (e.n : Int) ls0).nonempty_lines - 1) * e.spacing).tdiv
              (gtk_grid_request_compute_expand e 0 (e.n : Int) ls0).nonempty_lines)
            (List.range e.n)
            ((total - ((gtk_grid_request_compute_expand e 0 (e.n : Int) ls0).nonempty_lines - 1) * e.spacing).tmod
              (gtk_grid_request_compute_expand e 0 (e.n : Int) ls0).nonempty_lines)
            (gtk_grid_request_compute_expand e 0 (e.n : Int) ls0).lines
        else
          gtk_grid_distribute_non_homogeneous
            (gtk_grid_request_compute_expand e 0 (e.n : Int) ls0).lines
            (gtk_grid_request_compute_expand e 0 (e.n : Int) ls0).nonempty_lines
            (gtk_grid_request_compute_expand e 0 (e.n : Int) ls0).expand_lines
            (total - ((gtk_grid_request_compute_expand e 0 (e.n : Int) ls0).nonempty_lines - 1) * e.spacing)
            0 (e.n : Int)) := by
  have hcond : ¬(e.vertical = true ∧ (-1 : Int) ≠ -1 ∧ e.linesMin ≤ e.baseline_row ∧
      e.baseline_row < e.linesMin + (e.n : Int) ∧
      (ls0 (e.baseline_row - e.linesMin).toNat).minimum_above ≠ -1) := by simp
  simp only [gtk_grid_request_allocate]
  rw [if_neg hcond]
  simp only []
  rw [if_neg (by
    simp only [and_true]
    omega)]
  simp only [show ((0 : Int) > 0) = False from by norm_num, if_false, and_true]
  rw [if_pos hne]
  simp only []
  rw [distribute_zero]

/-- C4 (amended): for every visible spanning child (span > 1 in the
orientation), after an allocate pass WITHOUT an ambient baseline
(gtk_widget_get_allocated_baseline = -1) whose total size is at least the
grid's reported size-request minimum — which the preferred size, being no
smaller, also guarantees — the sum of the allocations of the lines the child
spans plus (span-1)*spacing covers the child's minimum size.  The restriction
to passes without an ambient baseline is necessary: `C4_counterexample` shows
the guarantee fails in the vertical baseline-split path even with total equal
to the preferred size. -/
theorem C4_spanning_allocation (e : RequestEnv) (c : OrientedChild) (total : Int)
    (hmax : (e.n : Int) ≤ G_MAXINT)
    (hc : c ∈ e.children) (hv : c.visible = true) (hs : 2 ≤ c.span)
    (hin : c.idx + c.span ≤ e.n)
    (htot : (gtk_grid_request_sum e (gtk_grid_request_run e)).1 ≤ total) :
    c.minimum ≤ ((c.span : Int) - 1) * e.spacing +
      sumOver (fun i =>
        ((gtk_grid_request_allocate e (-1) total (gtk_grid_request_run e))
          (c.idx + i)).allocation) c.span := by
  have hA := run_spanning_min e c hc hv hs hin
  have hnepos := ce_nonempty_pos e (gtk_grid_request_run e) c hc hv hs hin
  rw [allocate_no_baseline e total (gtk_grid_request_run e) (by omega)]
  rw [sumOver_congr c.span (fun i _ => allocateBaselines_alloc e _ (c.idx + i))]
  by_cases hh : e.homogeneous = true
  · rw [sumOver_congr c.span (fun i _ => by rw [if_pos hh])]
    -- abbreviations in comments: R the compute pass, NE its nonempty count,
    -- SIZE1 the budget, EXTRA the even share, M the homogeneous line minimum
    have hconst : ∀ i, i < e.n → ((gtk_grid_request_run e) i).minimum =
        maxOver (fun j =>
          ((gtk_grid_request_spanning e
            (gtk_grid_request_homogeneous e
              (gtk_grid_request_non_spanning e (gtk_grid_request_init e)))) j).minimum)
          e.n := by
      intro i hi
      exact (homogeneous_clamp_spec e hh
        (gtk_grid_request_spanning e
          (gtk_grid_request_homogeneous e
            (gtk_grid_request_non_spanning e (gtk_grid_request_init e)))) i hi).1
    have hM0 : 0 ≤ maxOver (fun j =>
        ((gtk_grid_request_spanning e
          (gtk_grid_request_homogeneous e
            (gtk_grid_request_non_spanning e (gtk_grid_request_init e)))) j).minimum)
        e.n := maxOver_nonneg _ _
    have hsum := request_sum_fst e (gtk_grid_request_run e) hmax
    rw [sumOver_add (fun i =>
        ((gtk_grid_request_compute_expand e 0 (e.n : Int)
          (gtk_grid_request_run e)).lines i).minimum)
      (fun i =>
        if !((gtk_grid_request_compute_expand e 0 (e.n : Int)
          (gtk_grid_request_run e)).lines i).empty then e.spacing else 0) e.n] at hsum
    rw [sumOver_ite_count (fun i =>
        !((gtk_grid_request_compute_expand e 0 (e.n : Int)
          (gtk_grid_request_run e)).lines i).empty) e.spacing e.n] at hsum
    rw [if_pos (by omega :
        0 < (gtk_grid_request_compute_expand e 0 (e.n : Int)
          (gtk_grid_request_run e)).nonempty_lines)] at hsum
    have hcnt := ce_nonempty_count e (gtk_grid_request_run e)
    have hminsum : sumOver (fun i =>
        ((gtk_grid_request_compute_expand e 0 (e.n : Int)
          (gtk_grid_request_run e)).lines i).minimum) e.n =
        (e.n : Int) * maxOver (fun j =>
          ((gtk_grid_request_spanning e
            (gtk_grid_request_homogeneous e
              (gtk_grid_request_non_spanning e (gtk_grid_request_init e)))) j).minimum)
          e.n := by
      rw [sumOver_congr e.n (fun i hi => by
        rw [ce_lines_minimum, hconst i hi])]
      exact sumOver_const _ e.n
    rw [hminsum] at hsum
    have hNEn : (gtk_grid_request_compute_expand e 0 (e.n : Int)
        (gtk_grid_request_run e)).nonempty_lines ≤ (e.n : Int) := by
      rw [hcnt]
      have := List.countP_le_length (l := List.range e.n)
        (fun i => !((gtk_grid_request_compute_expand e 0 (e.n : Int)
          (gtk_grid_request_run e)).lines i).empty)
      rw [List.length_range] at this
      exact_mod_cast this
    have hsize1 : (gtk_grid_request_compute_expand e 0 (e.n : Int)
          (gtk_grid_request_run e)).nonempty_lines *
        maxOver (fun j =>
          ((gtk_grid_request_spanning e
            (gtk_grid_request_homogeneous e
              (gtk_grid_request_non_spanning e (gtk_grid_request_init e)))) j).minimum)
          e.n ≤
        total - ((gtk_grid_request_compute_expand e 0 (e.n : Int)
          (gtk_grid_request_run e)).nonempty_lines - 1) * e.spacing := by
      have hmm : (gtk_grid_request_compute_expand e 0 (e.n : Int)
            (gtk_grid_request_run e)).nonempty_lines *
          maxOver (fun j =>
            ((gtk_grid_request_spanning e
              (gtk_grid_request_homogeneous e
                (gtk_grid_request_non_spanning e (gtk_grid_request_init e)))) j).minimum)
            e.n ≤
          (e.n : Int) * maxOver (fun j =>
            ((gtk_grid_request_spanning e
              (gtk_grid_request_homogeneous e
                (gtk_grid_request_non_spanning e (gtk_grid_request_init e)))) j).minimum)
            e.n := mul_le_mul_of_nonneg_right hNEn hM0
      rw [← hcnt] at hsum
      linarith
    have hextra : maxOver (fun j =>
        ((gtk_grid_request_spanning e
          (gtk_grid_request_homogeneous e
            (gtk_grid_request_non_spanning e (gtk_grid_request_init e)))) j).minimum)
        e.n ≤
        (total - ((gtk_grid_request_compute_expand e 0 (e.n : Int)
          (gtk_grid_request_run e)).nonempty_lines - 1) * e.spacing).tdiv
          (gtk_grid_request_compute_expand e 0 (e.n : Int)
            (gtk_grid_request_run e)).nonempty_lines := by
      have hs1nn : 0 ≤ total - ((gtk_grid_request_compute_expand e 0 (e.n : Int)
          (gtk_grid_request_run e)).nonempty_lines - 1) * e.spacing := by
        have : 0 ≤ (gtk_grid_request_compute_expand e 0 (e.n : Int)
            (gtk_grid_request_run e)).nonempty_lines *
            maxOver (fun j =>
              ((gtk_grid_request_spanning e
                (gtk_grid_request_homogeneous e
                  (gtk_grid_request_non_spanning e (gtk_grid_request_init e)))) j).minimum)
              e.n := mul_nonneg (by omega) hM0
        linarith
      rw [Int.tdiv_eq_ediv hs1nn (by omega)]
      rw [Int.le_ediv_iff_mul_le (by omega)]
      calc maxOver (fun j =>
            ((gtk_grid_request_spanning e
              (gtk_grid_request_homogeneous e
                (gtk_grid_request_non_spanning e (gtk_grid_request_init e)))) j).minimum)
            e.n *
          (gtk_grid_request_compute_expand e 0 (e.n : Int)
            (gtk_grid_request_run e)).nonempty_lines =
          (gtk_grid_request_compute_expand e 0 (e.n : Int)
            (gtk_grid_request_run e)).nonempty_lines *
          maxOver (fun j =>
            ((gtk_grid_request_spanning e
              (gtk_grid_request_homogeneous e
                (gtk_grid_request_non_spanning e (gtk_grid_request_init e)))) j).minimum)
            e.n := by ring
        _ ≤ _ := hsize1
    have hge : sumOver (fun _ =>
        (total - ((gtk_grid_request_compute_expand e 0 (e.n : Int)
          (gtk_grid_request_run e)).nonempty_lines - 1) * e.spacing).tdiv
          (gtk_grid_request_compute_expand e 0 (e.n : Int)
            (gtk_grid_request_run e)).nonempty_lines) c.span ≤
        sumOver (fun i =>
          (homogeneousAssign
            ((total - ((gtk_grid_request_compute_expand e 0 (e.n : Int)
              (gtk_grid_request_run e)).nonempty_lines - 1) * e.spacing).tdiv
              (gtk_grid_request_compute_expand e 0 (e.n : Int)
                (gtk_grid_request_run e)).nonempty_lines)
            (List.range e.n)
            ((total - ((gtk_grid_request_compute_expand e 0 (e.n : Int)
              (gtk_grid_request_run e)).nonempty_lines - 1) * e.spacing).tmod
              (gtk_grid_request_compute_expand e 0 (e.n : Int)
                (gtk_grid_request_run e)).nonempty_lines)
            (gtk_grid_request_compute_expand e 0 (e.n : Int)
              (gtk_grid_request_run e)).lines (c.idx + i)).allocation) c.span := by
      apply sumOver_le_sumOver
      intro i hi
      exact homogeneousAssign_ge _ (List.range e.n) _ _ (c.idx + i)
        (List.mem_range.mpr (by omega))
        (ce_spanned_empty_false e _ c hc hv hs hin i hi)
    rw [sumOver_const] at hge
    have hspanM : sumOver (fun i => ((gtk_grid_request_run e) (c.idx + i)).minimum)
        c.span =
        (c.span : Int) * maxOver (fun j =>
          ((gtk_grid_request_spanning e
            (gtk_grid_request_homogeneous e
              (gtk_grid_request_non_spanning e (gtk_grid_request_init e)))) j).minimum)
          e.n := by
      rw [sumOver_congr c.span (fun i hi => hconst (c.idx + i) (by omega))]
      exact sumOver_const _ c.span
    rw [hspanM] at hA
    have hspan0 : (0 : Int) ≤ (c.span : Int) := by positivity
    have hfin := mul_le_mul_of_nonneg_left hextra hspan0
    linarith
  · rw [sumOver_congr c.span (fun i _ => by rw [if_neg hh])]
    have hper : ∀ i, i < c.span →
        ((gtk_grid_request_run e) (c.idx + i)).minimum ≤
        ((gtk_grid_distribute_non_homogeneous
          (gtk_grid_request_compute_expand e 0 (e.n : Int)
            (gtk_grid_request_run e)).lines
          (gtk_grid_request_compute_expand e 0 (e.n : Int)
            (gtk_grid_request_run e)).nonempty_lines
          (gtk_grid_request_compute_expand e 0 (e.n : Int)
            (gtk_grid_request_run e)).expand_lines
          (total - ((gtk_grid_request_compute_expand e 0 (e.n : Int)
            (gtk_grid_request_run e)).nonempty_lines - 1) * e.spacing)
          0 (e.n : Int)) (c.idx + i)).allocation := by
      intro i hi
      have h1 := distribute_alloc_ge
        (gtk_grid_request_compute_expand e 0 (e.n : Int)
          (gtk_grid_request_run e)).lines
        (gtk_grid_request_compute_expand e 0 (e.n : Int)
          (gtk_grid_request_run e)).nonempty_lines
        (gtk_grid_request_compute_expand e 0 (e.n : Int)
          (gtk_grid_request_run e)).expand_lines
        (total - ((gtk_grid_request_compute_expand e 0 (e.n : Int)
          (gtk_grid_request_run e)).nonempty_lines - 1) * e.spacing)
        e.n (c.idx + i) (by omega)
        (ce_spanned_empty_false e _ c hc hv hs hin i hi) (by omega)
      rw [ce_lines_minimum] at h1
      exact h1
    have h2 := sumOver_le_sumOver c.span hper
    linarith

/-- Witness for C4: allocating 10 units to the two-line grid covers the
spanning child's minimum. -/
theorem C4_witness :
    c4WitChild.minimum ≤ ((c4WitChild.span : Int) - 1) * c4WitEnv.spacing +
      sumOver (fun i =>
        ((gtk_grid_request_allocate c4WitEnv (-1) 10 (gtk_grid_request_run c4WitEnv))
          (c4WitChild.idx + i)).allocation) c4WitChild.span :=
  C4_spanning_allocation c4WitEnv c4WitChild 10 (by decide) (by decide) (by decide)
    (by decide) (by decide) (by decide)

/-- Refutation of C4 as stated: in a vertical baseline-split allocate pass
with a small ambient baseline (0), the upper window's homogeneous budget is
baseline - minimum_above, so even with the total size equal to the grid's
reported minimum and preferred size (20), every line is allocated -5 and the
visible span-2 child's spanned allocations plus (span-1)*spacing fall short of
its minimum. -/
theorem C4_counterexample :
    c4CexSpan ∈ c4CexEnv.children ∧ c4CexSpan.visible = true ∧ 2 ≤ c4CexSpan.span ∧
      c4CexSpan.idx + c4CexSpan.span ≤ c4CexEnv.n ∧
      (gtk_grid_request_sum c4CexEnv (gtk_grid_request_run c4CexEnv)).1 ≤ 20 ∧
      (gtk_grid_request_sum c4CexEnv (gtk_grid_request_run c4CexEnv)).2.1 ≤ 20 ∧
      ¬(c4CexSpan.minimum ≤ ((c4CexSpan.span : Int) - 1) * c4CexEnv.spacing +
        sumOver (fun i =>
          ((gtk_grid_request_allocate c4CexEnv 0 20 (gtk_grid_request_run c4CexEnv))
            (c4CexSpan.idx + i)).allocation) c4CexSpan.span) := by
  decide
